import Mathlib

/-!
Shallow embedding of the MFA classification-to-decision pipeline
(`src/MFA/src/intents/*.ts`, `src/MFA/src/time/businessHours.ts`,
`src/MFA/src/pipeline/classifyExtract.ts`, and the multi-intent module),
together with theorems settling the specification claims.

JavaScript numbers are modelled as rationals (`ℚ`), JavaScript strings as
Lean `String`s, `null`/`undefined` as `Option`, and thrown exceptions as
`Except String`.  External library calls (`JSON.parse`, `jsonrepair`, the
LLM provider, the time normalizer) are modelled as explicit function
parameters returning `Except`; everything written in the repository itself
is translated definition by definition.
-/

set_option maxHeartbeats 1600000

namespace MFA

/-! ## Data model (`src/MFA/src/intents/types.ts`) -/

/-- `IntentType` from types.ts: the closed set of ten intents. -/
inductive IntentType where
  | termin_anfragen
  | termin_verschieben
  | termin_absagen
  | rezept_anfordern
  | arbeitsunfaehigkeit
  | befundauskunft
  | allgemeine_info
  | notfall
  | laborbefund
  | ueberweisung
deriving DecidableEq, Repr

/-- `NextAction` from types.ts. -/
inductive NextAction where
  | slots_vervollstaendigen
  | termin_vorschlagen
  | rueckfrage_senden
  | eskalieren
  | notfall_protokoll
  | sofort_termin
deriving DecidableEq, Repr

/-- `IntentSlots` from types.ts.  All slot values are `string | null` at
runtime (the enum-typed slots `dringlichkeit`/`versicherung` hold their
enum member as a string; membership is enforced by the Zod schema). -/
structure IntentSlots where
  datum : Option String
  zeit : Option String
  dringlichkeit : Option String
  grund : Option String
  person_name : Option String
  geburtsdatum : Option String
  versicherung : Option String
  medikament : Option String
  symptome : Option String
  kontakt : Option String
  freie_form : Option String
deriving DecidableEq, Repr

/-- `IntentItem` from types.ts; `confidence` is a JS number, modelled as ℚ. -/
structure IntentItem where
  intent : IntentType
  confidence : ℚ
  slots : IntentSlots
  next_action : NextAction
  notes : String
deriving DecidableEq, Repr

/-- `email_meta` part of `IntentResponse` (types.ts). -/
structure EmailMeta where
  language : String
  received_at_iso : Option String
  priority_indicator : Option String
deriving DecidableEq, Repr

/-- `overall` part of `IntentResponse` (types.ts). -/
structure Overall where
  top_intent : IntentType
  max_confidence : ℚ
  multi_intent : Bool
  sentiment : Option String
  requires_human : Bool
deriving DecidableEq, Repr

/-- `IntentResponse` from types.ts. -/
structure IntentResponse where
  email_meta : EmailMeta
  items : List IntentItem
  overall : Overall
deriving DecidableEq, Repr

/-- `EMERGENCY_KEYWORDS` from types.ts. -/
def EMERGENCY_KEYWORDS : List String :=
  ["notfall", "dringend", "sofort", "akut", "schmerzen", "atemnot",
   "brustschmerzen", "herzinfarkt", "schlaganfall", "bewusstlos",
   "blutung", "vergiftung", "unfall", "sturz", "kollaps"]

/-! ## JavaScript string primitives used by the sources -/

/-- Does the character list `hay` start with `needle`? -/
def startsWithL : List Char → List Char → Bool
  | _, [] => true
  | [], _ :: _ => false
  | h :: hs, n :: ns => h = n && startsWithL hs ns

/-- JS `hay.includes(needle)`: substring containment on character lists. -/
def containsL : List Char → List Char → Bool
  | [], needle => needle.isEmpty
  | h :: t, needle => startsWithL (h :: t) needle || containsL t needle

/-- JS `hay.includes(needle)` on strings. -/
def jsIncludes (hay needle : String) : Bool :=
  containsL hay.data needle.data

/-- JS `s.substring(0, n)`: the first `n` characters of `s`. -/
def jsTake (n : Nat) (s : String) : String :=
  ⟨s.data.take n⟩

/-- JS `s.trim()`: strip leading and trailing whitespace. -/
def jsTrim (s : String) : String :=
  ⟨((s.data.dropWhile Char.isWhitespace).reverse.dropWhile Char.isWhitespace).reverse⟩

/-- JS `s.toLowerCase()` on the ASCII range (all emergency keywords and
comparisons in the sources are ASCII; `Char.toLower` lowers exactly the
ASCII uppercase letters). -/
def jsToLower (s : String) : String :=
  ⟨s.data.map Char.toLower⟩

/-- JS `s.startsWith(p)`. -/
def jsStartsWith (s p : String) : Bool :=
  startsWithL s.data p.data

/-- JS `s.endsWith(p)`. -/
def jsEndsWith (s p : String) : Bool :=
  startsWithL s.data.reverse p.data.reverse

/-- Split a character list at every occurrence of `sep`
(JS `s.split(sep)` for a one-character separator). -/
def splitOnCharL (sep : Char) : List Char → List (List Char)
  | [] => [[]]
  | c :: rest =>
    let r := splitOnCharL sep rest
    if c = sep then [] :: r
    else
      match r with
      | h :: t => (c :: h) :: t
      | [] => [[c]]

/-- JS `s.split(":")`. -/
def jsSplitColon (s : String) : List String :=
  (splitOnCharL ':' s.data).map (⟨·⟩)

/-! ## Gate engine (`src/MFA/src/intents/gates.ts`) -/

/-- Urgency tag of an `EMERGENCY` decision (gates.ts). -/
inductive Urgency where
  | high
  | critical
deriving DecidableEq, Repr

/-- `GateDecision` from gates.ts: a tagged union of four dispositions. -/
inductive GateDecision where
  | AUTO_PROCESS (items : List IntentItem) (confidence : ℚ) (reason : String)
  | ASK_CONFIRM (items : List IntentItem) (reason : String) (confidence : ℚ)
      (missingSlots : Option (List String))
  | ESCALATE (items : List IntentItem) (reason : String) (confidence : ℚ)
  | EMERGENCY (items : List IntentItem) (reason : String) (urgency : Urgency)
deriving DecidableEq, Repr

/-- `GateConfig` from gates.ts.  `requiredSlots` is an object keyed by
intent; every `IntentType` key is present in the default, so it is
modelled as a total function on the closed intent set. -/
structure GateConfig where
  autoProcessThreshold : ℚ
  confirmThreshold : ℚ
  escalateThreshold : ℚ
  emergencyKeywords : List String
  requiredSlots : IntentType → List String

/-- The `requiredSlots` table of `DEFAULT_CONFIG` (gates.ts). -/
def defaultRequiredSlots : IntentType → List String
  | .termin_anfragen => ["datum", "zeit"]
  | .termin_verschieben => ["datum"]
  | .termin_absagen => []
  | .rezept_anfordern => ["medikament"]
  | .arbeitsunfaehigkeit => ["grund"]
  | .befundauskunft => []
  | .laborbefund => []
  | .ueberweisung => ["grund"]
  | .notfall => []
  | .allgemeine_info => []

/-- `DEFAULT_CONFIG` from gates.ts. -/
def DEFAULT_CONFIG : GateConfig where
  autoProcessThreshold := mkRat 85 100
  confirmThreshold := mkRat 1 2
  escalateThreshold := mkRat 1 2
  emergencyKeywords := EMERGENCY_KEYWORDS
  requiredSlots := defaultRequiredSlots

/-- The filter predicate of `checkForEmergency` step 1 (gates.ts):
`item.intent === "notfall" || item.next_action === "notfall_protokoll"`. -/
def isEmergencyItem (item : IntentItem) : Bool :=
  item.intent == .notfall || item.next_action == .notfall_protokoll

/-- `Math.max(...xs)` for a non-empty list (gates.ts computes it only on
non-empty lists; the `[]` case is never reached there). -/
def listMaxQ : List ℚ → ℚ
  | [] => 0
  | x :: xs => xs.foldl max x

/-- The keyword filter of `checkForEmergency` step 2 (gates.ts):
keywords of the config whose lower-cased form occurs in the lower-cased
text. -/
def keywordMatches (cfg : GateConfig) (text : String) : List String :=
  cfg.emergencyKeywords.filter (fun kw => jsIncludes (jsToLower text) (jsToLower kw))

/-- The synthesized emergency item of `checkForEmergency` step 2
(gates.ts). -/
def synthEmergencyItem (originalText : String) (found : List String) : IntentItem where
  intent := .notfall
  confidence := mkRat 9 10
  slots :=
    { datum := none
      zeit := none
      dringlichkeit := some "hoch"
      grund := some ("Notfall-Keywords erkannt: " ++ String.intercalate ", " found)
      person_name := none
      geburtsdatum := none
      versicherung := none
      medikament := none
      symptome := some (String.intercalate ", " found)
      kontakt := none
      freie_form := some (jsTake 200 originalText) }
  next_action := .notfall_protokoll
  notes := "Automatische Notfall-Erkennung durch Keywords: " ++ String.intercalate ", " found

/-- `checkForEmergency` from gates.ts. -/
def checkForEmergency (cfg : GateConfig) (resp : IntentResponse)
    (originalText : Option String) : Option GateDecision :=
  let emergencyItems := resp.items.filter isEmergencyItem
  if emergencyItems.length > 0 then
    let highestConfidence := listMaxQ (emergencyItems.map (·.confidence))
    some (.EMERGENCY emergencyItems "Notfall-Intent erkannt"
      (if highestConfidence > mkRat 8 10 then .critical else .high))
  else
    match originalText with
    | none => none
    | some txt =>
      let found := keywordMatches cfg txt
      if found.length > 0 then
        some (.EMERGENCY [synthEmergencyItem txt found]
          ("Notfall-Keywords erkannt: " ++ String.intercalate ", " found)
          (if found.any (fun kw =>
              kw ∈ ["herzinfarkt", "schlaganfall", "bewusstlos", "atemnot"])
            then .critical else .high))
      else none

/-- Slot access `item.slots[requiredSlot]` (gates.ts `findMissingSlots`):
lookup of a slot field by its string name; an unknown name is JS
`undefined`, i.e. `none`. -/
def slotLookup (slots : IntentSlots) (name : String) : Option String :=
  if name = "datum" then slots.datum
  else if name = "zeit" then slots.zeit
  else if name = "dringlichkeit" then slots.dringlichkeit
  else if name = "grund" then slots.grund
  else if name = "person_name" then slots.person_name
  else if name = "geburtsdatum" then slots.geburtsdatum
  else if name = "versicherung" then slots.versicherung
  else if name = "medikament" then slots.medikament
  else if name = "symptome" then slots.symptome
  else if name = "kontakt" then slots.kontakt
  else if name = "freie_form" then slots.freie_form
  else none

/-- The missing-slot test of gates.ts:
`!slotValue || (typeof slotValue === 'string' && slotValue.trim() === '')`.
For string-or-null slot values this is: absent, or trims to the empty
string (the only falsy string `""` also trims to `""`). -/
def isMissingVal : Option String → Bool
  | none => true
  | some s => jsTrim s == ""

/-- The `Set.add` of the inner loop of `findMissingSlots` (gates.ts):
record `req` when its slot value is missing (the JS `Set` keeps
first-insertion order and ignores duplicates). -/
def addMissingSlot (item : IntentItem) (acc : List String) (req : String) : List String :=
  if isMissingVal (slotLookup item.slots req) && !acc.contains req
  then acc ++ [req] else acc

/-- The outer loop body of `findMissingSlots`: fold one item's required
slots into the accumulated set. -/
def addItemMissing (cfg : GateConfig) (acc : List String) (item : IntentItem) : List String :=
  (cfg.requiredSlots item.intent).foldl (addMissingSlot item) acc

/-- `findMissingSlots` from gates.ts.  The JS `Set` is modelled as a
duplicate-free list built in iteration order. -/
def findMissingSlots (cfg : GateConfig) (items : List IntentItem) : List String :=
  items.foldl (addItemMissing cfg) []

/-- `gate` from gates.ts, with the module-level mutable `gateConfig`
made an explicit argument. -/
def gate (cfg : GateConfig) (resp : IntentResponse)
    (originalText : Option String) : GateDecision :=
  match checkForEmergency cfg resp originalText with
  | some emergencyDecision => emergencyDecision
  | none =>
    if resp.overall.requires_human then
      .ESCALATE resp.items "LLM empfiehlt menschliche Bearbeitung"
        resp.overall.max_confidence
    else
      let c := resp.overall.max_confidence
      if c ≥ cfg.autoProcessThreshold then
        let missingSlots := findMissingSlots cfg resp.items
        if missingSlots.length = 0 then
          .AUTO_PROCESS resp.items c "Hohe Konfidenz und alle Slots verfügbar"
        else
          .ASK_CONFIRM resp.items "Hohe Konfidenz, aber fehlende Informationen" c
            (some missingSlots)
      else if c ≥ cfg.confirmThreshold then
        let missingSlots := findMissingSlots cfg resp.items
        .ASK_CONFIRM resp.items "Mittlere Sicherheit bei der Erkennung" c
          (if missingSlots.length > 0 then some missingSlots else none)
      else
        .ESCALATE resp.items "Niedrige Sicherheit bei der Erkennung" c

/-! ## Multi-intent handling (the unnamed multi-intent module,
`src/unnamed/part_003`) -/

/-- `IntentBucket` from the multi-intent module. -/
structure IntentBucket where
  intent : IntentType
  items : List IntentItem
  confidence : ℚ
  priority : ℚ
deriving DecidableEq, Repr

/-- `ProcessingPlan` from the multi-intent module. -/
structure ProcessingPlan where
  buckets : List IntentBucket
  totalItems : Nat
  multiIntent : Bool
  processingOrder : List IntentType
  estimatedDuration : ℚ
deriving DecidableEq, Repr

/-- `INTENT_PRIORITIES` from the multi-intent module.  Every `IntentType`
is a key of the table, so the `|| 99` fallback of the source is never
taken (and no table value is falsy). -/
def INTENT_PRIORITIES : IntentType → ℚ
  | .notfall => 1
  | .termin_anfragen => 2
  | .rezept_anfordern => 3
  | .arbeitsunfaehigkeit => 4
  | .befundauskunft => 5
  | .termin_verschieben => 6
  | .termin_absagen => 7
  | .laborbefund => 8
  | .ueberweisung => 9
  | .allgemeine_info => 10

/-- `PROCESSING_DURATION` from the multi-intent module (minutes; every
`IntentType` is a key).  Note `notfall` is 0 ("Sofortige Weiterleitung"). -/
def PROCESSING_DURATION : IntentType → ℚ
  | .notfall => 0
  | .termin_anfragen => 2
  | .termin_verschieben => 1
  | .termin_absagen => 1
  | .rezept_anfordern => 1
  | .arbeitsunfaehigkeit => 3
  | .befundauskunft => 2
  | .laborbefund => 2
  | .ueberweisung => 2
  | .allgemeine_info => 1

/-- `PROCESSING_DURATION[intent] || 1` as written in
`createProcessingPlan`: a falsy table value (here: the 0 of `notfall`)
is replaced by 1 by the JS `||` operator. -/
def processingDurationOr1 (i : IntentType) : ℚ :=
  if PROCESSING_DURATION i = 0 then 1 else PROCESSING_DURATION i

/-- The arithmetic mean of the members' confidences, as recomputed by
`splitByIntent` after each insertion. -/
def bucketMean (items : List IntentItem) : ℚ :=
  (items.map (·.confidence)).sum / items.length

/-- One step of the `splitByIntent` loop: push `item` into its bucket
(inserting a fresh bucket at the end when the key is new — JS `Map`
iteration order is insertion order) and recompute the mean confidence. -/
def addToBuckets : List IntentBucket → IntentItem → List IntentBucket
  | [], item =>
    [{ intent := item.intent, items := [item],
       confidence := bucketMean [item], priority := INTENT_PRIORITIES item.intent }]
  | b :: rest, item =>
    if b.intent == item.intent then
      { b with items := b.items ++ [item],
               confidence := bucketMean (b.items ++ [item]) } :: rest
    else
      b :: addToBuckets rest item

/-- `splitByIntent` from the multi-intent module: the insertion-ordered
`Map` is modelled as an insertion-ordered bucket list. -/
def splitByIntent (items : List IntentItem) : List IntentBucket :=
  items.foldl addToBuckets []

/-- The comparator of `prioritizeIntents` as a relation: `a` sorts no
later than `b` when its priority is smaller, or equal with at least the
same confidence (ties by descending confidence). -/
def bucketLE (a b : IntentBucket) : Prop :=
  a.priority < b.priority ∨ (a.priority = b.priority ∧ b.confidence ≤ a.confidence)

instance : DecidableRel bucketLE := fun a b => by
  unfold bucketLE; infer_instance

/-- `prioritizeIntents` from the multi-intent module: `Array.sort` with
the priority-then-confidence comparator (a stable sort producing an
ordering by `bucketLE`). -/
def prioritizeIntents (buckets : List IntentBucket) : List IntentBucket :=
  buckets.insertionSort bucketLE

/-- `createProcessingPlan` from the multi-intent module. -/
def createProcessingPlan (items : List IntentItem) : ProcessingPlan :=
  let bucketMap := splitByIntent items
  let prioritizedBuckets := prioritizeIntents bucketMap
  { buckets := prioritizedBuckets
    totalItems := items.length
    multiIntent := bucketMap.length > 1
    processingOrder := prioritizedBuckets.map (·.intent)
    estimatedDuration := prioritizedBuckets.foldl
      (fun total bucket => total + processingDurationOr1 bucket.intent * bucket.items.length) 0 }

/-- The appointment-family intents of `areIntentsCompatible`. -/
def terminIntents : List IntentType :=
  [.termin_anfragen, .termin_verschieben, .termin_absagen]

/-- The intents compatible with the appointment family
(`areIntentsCompatible`). -/
def compatibleWithTermin : List IntentType :=
  terminIntents ++ [.rezept_anfordern, .allgemeine_info]

/-- `areIntentsCompatible` from the multi-intent module. -/
def areIntentsCompatible (intents : List IntentType) : Bool :=
  if intents.contains .notfall && intents.length > 1 then
    false
  else
    let hasTerminIntent := intents.any (fun i => terminIntents.contains i)
    if hasTerminIntent then
      intents.all (fun i => compatibleWithTermin.contains i)
    else
      true

/-- The complexity record returned by `analyzeComplexity`. -/
structure Complexity where
  level : String
  score : ℚ
  factors : List String
deriving DecidableEq, Repr

/-- `analyzeComplexity` from the multi-intent module.  With an empty
bucket list the JS average is `NaN` and `NaN < 0.6` is false, so the
confidence factor is skipped; the guard below reproduces that. -/
def analyzeComplexity (plan : ProcessingPlan) : Complexity :=
  let score1 : ℚ := if plan.buckets.length > 1
    then (mkRat 2 10) * min ((plan.buckets.length : ℚ) - 1) 3 else 0
  let factors1 : List String := if plan.buckets.length > 1
    then [toString plan.buckets.length ++ " verschiedene Anliegen"] else []
  let hasEmergency := plan.buckets.any (fun b => b.intent == .notfall)
  let score2 : ℚ := if hasEmergency then mkRat 1 2 else 0
  let factors2 : List String := if hasEmergency then ["Notfall erkannt"] else []
  let avgConfidence : ℚ :=
    (plan.buckets.map (·.confidence)).sum / plan.buckets.length
  let lowConf := plan.buckets.length ≠ 0 ∧ avgConfidence < mkRat 6 10
  let score3 : ℚ := if lowConf then mkRat 3 10 else 0
  let factors3 : List String := if lowConf then ["Niedrige Erkennungssicherheit"] else []
  let longDuration := plan.estimatedDuration > 5
  let score4 : ℚ := if longDuration then mkRat 2 10 else 0
  let factors4 : List String := if longDuration then ["Längere Bearbeitungszeit erwartet"] else []
  let incompatible := !areIntentsCompatible (plan.buckets.map (·.intent))
  let score5 : ℚ := if incompatible then mkRat 3 10 else 0
  let factors5 : List String := if incompatible then ["Inkompatible Anliegen-Kombination"] else []
  let score := score1 + score2 + score3 + score4 + score5
  let level : String :=
    if score ≥ mkRat 8 10 then "critical"
    else if score ≥ mkRat 1 2 then "complex"
    else if score ≥ mkRat 3 10 then "medium"
    else "simple"
  { level := level, score := score
    factors := factors1 ++ factors2 ++ factors3 ++ factors4 ++ factors5 }

/-! ## Business hours (`src/MFA/src/time/businessHours.ts`) -/

/-- Value of a digit character. -/
def digitVal (c : Char) : Nat := c.toNat - '0'.toNat

/-- Natural number denoted by a non-empty digit string. -/
def digitsToNat (l : List Char) : Nat :=
  l.foldl (fun acc c => acc * 10 + digitVal c) 0

/-- JS `Number(s)` restricted to the decimal forms that occur in
clock-time configuration strings: optional sign, digits, optional
fraction.  A blank string coerces to 0; anything else non-numeric is
`NaN`, modelled as `none`.  (Exotic forms — hex, exponents — do not
occur in `HH:MM` material and are mapped to `none`.) -/
def jsNumber (s : String) : Option ℚ :=
  let t := jsTrim s
  if t = "" then some 0
  else
    let (sign, rest) : Int × List Char :=
      match t.data with
      | '-' :: r => (-1, r)
      | '+' :: r => (1, r)
      | r => (1, r)
    let intPart := rest.takeWhile (·.isDigit)
    let rest2 := rest.dropWhile (·.isDigit)
    match rest2 with
    | [] =>
      if intPart.isEmpty then none
      else some (mkRat (sign * digitsToNat intPart) 1)
    | '.' :: fracPart =>
      if fracPart.all (·.isDigit) && !(intPart.isEmpty && fracPart.isEmpty) then
        some (mkRat (sign * (digitsToNat intPart * 10 ^ fracPart.length +
          digitsToNat fracPart)) (10 ^ fracPart.length))
      else none
    | _ => none

/-- `start.split(":").map(Number)` destructured into hours and minutes and
combined into minutes-of-day, with the `isNaN` guard of
`isWithinBusinessHours`: `none` when either component is `NaN` (a missing
second component is JS `undefined`, which is also `NaN`). -/
def slotMinutes (s : String) : Option ℚ := do
  let parts := jsSplitColon s
  let hs ← parts[0]?
  let h ← jsNumber hs
  let ms ← parts[1]?
  let m ← jsNumber ms
  pure (h * 60 + m)

/-- `Holiday` from businessHours.ts. -/
structure Holiday where
  date : String
  name : String
  type : String
deriving DecidableEq, Repr

/-- The mutable module state of businessHours.ts (`businessHours` and
`holidays`), made explicit.  The weekly-hours object is modelled as an
association list keyed by the day keys. -/
structure BHState where
  hours : List (String × List (String × String))
  holidays : List Holiday

/-- `DEFAULT_BUSINESS_HOURS` from businessHours.ts. -/
def DEFAULT_BUSINESS_HOURS : List (String × List (String × String)) :=
  [("mon", [("08:00", "12:00"), ("14:00", "18:00")]),
   ("tue", [("08:00", "12:00"), ("14:00", "18:00")]),
   ("wed", [("08:00", "12:00")]),
   ("thu", [("08:00", "12:00"), ("14:00", "18:00")]),
   ("fri", [("08:00", "13:00")]),
   ("sat", []),
   ("sun", [])]

/-- `DEFAULT_HOLIDAYS` from businessHours.ts (dates only matter for the
open/closed verdict). -/
def DEFAULT_HOLIDAYS : List Holiday :=
  [⟨"2024-01-01", "Neujahr", "federal"⟩,
   ⟨"2024-03-29", "Karfreitag", "federal"⟩,
   ⟨"2024-04-01", "Ostermontag", "federal"⟩,
   ⟨"2024-05-01", "Tag der Arbeit", "federal"⟩,
   ⟨"2024-05-09", "Christi Himmelfahrt", "federal"⟩,
   ⟨"2024-05-20", "Pfingstmontag", "federal"⟩,
   ⟨"2024-10-03", "Tag der Deutschen Einheit", "federal"⟩,
   ⟨"2024-12-25", "1. Weihnachtsfeiertag", "federal"⟩,
   ⟨"2024-12-26", "2. Weihnachtsfeiertag", "federal"⟩,
   ⟨"2025-01-01", "Neujahr", "federal"⟩,
   ⟨"2025-04-18", "Karfreitag", "federal"⟩,
   ⟨"2025-04-21", "Ostermontag", "federal"⟩,
   ⟨"2025-05-01", "Tag der Arbeit", "federal"⟩,
   ⟨"2025-05-29", "Christi Himmelfahrt", "federal"⟩,
   ⟨"2025-06-09", "Pfingstmontag", "federal"⟩,
   ⟨"2025-10-03", "Tag der Deutschen Einheit", "federal"⟩,
   ⟨"2025-12-25", "1. Weihnachtsfeiertag", "federal"⟩,
   ⟨"2025-12-26", "2. Weihnachtsfeiertag", "federal"⟩]

/-- The default state (`DEFAULT_BUSINESS_HOURS`, `DEFAULT_HOLIDAYS`). -/
def defaultBHState : BHState :=
  { hours := DEFAULT_BUSINESS_HOURS, holidays := DEFAULT_HOLIDAYS }

/-- A successfully parsed, valid local timestamp as observed by
`isWithinBusinessHours`: the `yyyy-MM-dd` rendering used for the holiday
lookup, the `getDay()` weekday (0 = Sunday … 6 = Saturday), and the local
clock time. -/
structure LocalDateTime where
  dateStr : String
  weekday : Nat
  hour : Nat
  minute : Nat
deriving DecidableEq, Repr

/-- `getDayKey` from businessHours.ts: `days[date.getDay()]`. -/
def getDayKey (weekday : Nat) : String :=
  (["sun", "mon", "tue", "wed", "thu", "fri", "sat"]).getD weekday ""

/-- `isHoliday` from businessHours.ts, as the boolean verdict used by
`isWithinBusinessHours` (`find(...) || null`, then truthiness). -/
def isHolidayB (st : BHState) (dateStr : String) : Bool :=
  st.holidays.any (fun h => h.date == dateStr)

/-- `isWithinBusinessHours` from businessHours.ts, evaluated on an
already parsed valid timestamp (the `parseISO`/`isValid` failure paths
return `false` before this logic runs). -/
def isWithinBusinessHours (st : BHState) (dt : LocalDateTime) : Bool :=
  if isHolidayB st dt.dateStr then false
  else
    match st.hours.lookup (getDayKey dt.weekday) with
    | none => false
    | some timeSlots =>
      if timeSlots.length = 0 then false
      else
        let totalMinutes : ℚ := dt.hour * 60 + dt.minute
        timeSlots.any (fun slot =>
          match slotMinutes slot.1, slotMinutes slot.2 with
          | some s, some e => decide (s ≤ totalMinutes ∧ totalMinutes ≤ e)
          | _, _ => false)

/-- The configured intervals for a weekday (the claim's "configured
intervals for its weekday"): the day-key entry of the weekly table, or
nothing. -/
def slotsForWeekday (st : BHState) (weekday : Nat) : List (String × String) :=
  (st.hours.lookup (getDayKey weekday)).getD []

/-- The claim's notion of being open: the calendar date is not a
configured holiday and the clock time lies inside at least one
(parsable) configured interval of the weekday. -/
def openPerClaim (st : BHState) (dt : LocalDateTime) : Prop :=
  isHolidayB st dt.dateStr = false ∧
  ∃ slot ∈ slotsForWeekday st dt.weekday, ∃ s e,
    slotMinutes slot.1 = some s ∧ slotMinutes slot.2 = some e ∧
    s ≤ ((dt.hour : ℚ) * 60 + dt.minute) ∧ ((dt.hour : ℚ) * 60 + dt.minute) ≤ e

/-! ## JSON validation (`src/MFA/src/intents/validate.ts`) -/

/-- JSON values as seen after `JSON.parse`. -/
inductive Json where
  | null
  | bool (b : Bool)
  | num (q : ℚ)
  | str (s : String)
  | arr (elems : List Json)
  | obj (fields : List (String × Json))

/-- First field of an object with the given key (JS property access on a
parsed JSON object; a missing key is `undefined`). -/
def getField (fields : List (String × Json)) (key : String) : Option Json :=
  fields.lookup key

/-- The `z.enum(INTENT_TYPES)` decoding: intent strings to `IntentType`. -/
def intentOfString : String → Option IntentType
  | "termin_anfragen" => some .termin_anfragen
  | "termin_verschieben" => some .termin_verschieben
  | "termin_absagen" => some .termin_absagen
  | "rezept_anfordern" => some .rezept_anfordern
  | "arbeitsunfaehigkeit" => some .arbeitsunfaehigkeit
  | "befundauskunft" => some .befundauskunft
  | "allgemeine_info" => some .allgemeine_info
  | "notfall" => some .notfall
  | "laborbefund" => some .laborbefund
  | "ueberweisung" => some .ueberweisung
  | _ => none

/-- Rendering of an `IntentType` back to its source string (used in the
fatal plausibility message). -/
def intentToString : IntentType → String
  | .termin_anfragen => "termin_anfragen"
  | .termin_verschieben => "termin_verschieben"
  | .termin_absagen => "termin_absagen"
  | .rezept_anfordern => "rezept_anfordern"
  | .arbeitsunfaehigkeit => "arbeitsunfaehigkeit"
  | .befundauskunft => "befundauskunft"
  | .allgemeine_info => "allgemeine_info"
  | .notfall => "notfall"
  | .laborbefund => "laborbefund"
  | .ueberweisung => "ueberweisung"

/-- The `z.enum(NEXT_ACTIONS)` decoding. -/
def nextActionOfString : String → Option NextAction
  | "slots_vervollstaendigen" => some .slots_vervollstaendigen
  | "termin_vorschlagen" => some .termin_vorschlagen
  | "rueckfrage_senden" => some .rueckfrage_senden
  | "eskalieren" => some .eskalieren
  | "notfall_protokoll" => some .notfall_protokoll
  | "sofort_termin" => some .sofort_termin
  | _ => none

/-- `z.string().nullable()`: a string or `null` (a missing field fails). -/
def decodeNullableString : Option Json → Except String (Option String)
  | some .null => .ok none
  | some (.str s) => .ok (some s)
  | _ => .error "expected string or null"

/-- `z.enum(allowed).nullable()`. -/
def decodeNullableEnum (allowed : List String) : Option Json → Except String (Option String)
  | some .null => .ok none
  | some (.str s) => if allowed.contains s then .ok (some s) else .error "invalid enum value"
  | _ => .error "expected enum or null"

/-- `z.boolean()`. -/
def decodeBool : Option Json → Except String Bool
  | some (.bool b) => .ok b
  | _ => .error "expected boolean"

/-- `z.number().min(0).max(1)`: the confidence decoder. -/
def decodeConfidence : Option Json → Except String ℚ
  | some (.num q) =>
    if 0 ≤ q then
      if q ≤ 1 then .ok q else .error "confidence above 1"
    else .error "confidence below 0"
  | _ => .error "expected number"

/-- The `Slots` Zod object. -/
def decodeSlots : Json → Except String IntentSlots
  | .obj fields => do
    let datum ← decodeNullableString (getField fields "datum")
    let zeit ← decodeNullableString (getField fields "zeit")
    let dringlichkeit ← decodeNullableEnum ["hoch", "normal", "niedrig"]
      (getField fields "dringlichkeit")
    let grund ← decodeNullableString (getField fields "grund")
    let person_name ← decodeNullableString (getField fields "person_name")
    let geburtsdatum ← decodeNullableString (getField fields "geburtsdatum")
    let versicherung ← decodeNullableEnum ["gesetzlich", "privat"]
      (getField fields "versicherung")
    let medikament ← decodeNullableString (getField fields "medikament")
    let symptome ← decodeNullableString (getField fields "symptome")
    let kontakt ← decodeNullableString (getField fields "kontakt")
    let freie_form ← decodeNullableString (getField fields "freie_form")
    pure { datum := datum, zeit := zeit, dringlichkeit := dringlichkeit,
           grund := grund, person_name := person_name,
           geburtsdatum := geburtsdatum, versicherung := versicherung,
           medikament := medikament, symptome := symptome,
           kontakt := kontakt, freie_form := freie_form }
  | _ => .error "expected slots object"

/-- The `z.enum(INTENT_TYPES)` field decoder. -/
def decodeIntentField : Option Json → Except String IntentType
  | some (.str s) =>
    match intentOfString s with
    | some i => .ok i
    | none => .error "invalid intent"
  | _ => .error "expected intent string"

/-- The `z.enum(NEXT_ACTIONS)` field decoder. -/
def decodeNextActionField : Option Json → Except String NextAction
  | some (.str s) =>
    match nextActionOfString s with
    | some a => .ok a
    | none => .error "invalid next_action"
  | _ => .error "expected next_action string"

/-- `z.string()`: a required string field. -/
def decodeStringField : Option Json → Except String String
  | some (.str s) => .ok s
  | _ => .error "expected string"

/-- The required `slots` sub-object of an item. -/
def decodeSlotsField : Option Json → Except String IntentSlots
  | some j => decodeSlots j
  | none => .error "missing slots"

/-- The `IntentItem` Zod object. -/
def decodeItem : Json → Except String IntentItem
  | .obj fields => do
    let intent ← decodeIntentField (getField fields "intent")
    let confidence ← decodeConfidence (getField fields "confidence")
    let slots ← decodeSlotsField (getField fields "slots")
    let next_action ← decodeNextActionField (getField fields "next_action")
    let notes ← decodeStringField (getField fields "notes")
    pure { intent := intent, confidence := confidence, slots := slots,
           next_action := next_action, notes := notes }
  | _ => .error "expected item object"

/-- Element-wise decoding of the `items` array. -/
def decodeItemList : List Json → Except String (List IntentItem)
  | [] => .ok []
  | j :: rest => do
    let it ← decodeItem j
    let its ← decodeItemList rest
    pure (it :: its)

/-- The `email_meta` Zod object (`language` is the literal `"de"`). -/
def decodeEmailMeta : Json → Except String EmailMeta
  | .obj fields => do
    let language ← match getField fields "language" with
      | some (.str "de") => Except.ok "de"
      | _ => Except.error "expected language literal de"
    let received_at_iso ← decodeNullableString (getField fields "received_at_iso")
    let priority_indicator ← decodeNullableEnum ["normal", "urgent", "emergency"]
      (getField fields "priority_indicator")
    pure { language := language, received_at_iso := received_at_iso,
           priority_indicator := priority_indicator }
  | _ => .error "expected email_meta object"

/-- The `overall` Zod object. -/
def decodeOverall : Json → Except String Overall
  | .obj fields => do
    let top_intent ← match getField fields "top_intent" with
      | some (.str s) =>
        match intentOfString s with
        | some i => Except.ok i
        | none => Except.error "invalid top_intent"
      | _ => Except.error "expected top_intent string"
    let max_confidence ← decodeConfidence (getField fields "max_confidence")
    let multi_intent ← decodeBool (getField fields "multi_intent")
    let sentiment ← decodeNullableEnum ["positiv", "neutral", "negativ"]
      (getField fields "sentiment")
    let requires_human ← decodeBool (getField fields "requires_human")
    pure { top_intent := top_intent, max_confidence := max_confidence,
           multi_intent := multi_intent, sentiment := sentiment,
           requires_human := requires_human }
  | _ => .error "expected overall object"

/-- The required `email_meta` sub-object. -/
def decodeEmailMetaField : Option Json → Except String EmailMeta
  | some j => decodeEmailMeta j
  | none => .error "missing email_meta"

/-- The `z.array(IntentItem).min(1)` field decoder. -/
def decodeItemsArray : Option Json → Except String (List IntentItem)
  | some (.arr elems) => do
    let its ← decodeItemList elems
    if its.length ≥ 1 then Except.ok its
    else Except.error "items must contain at least 1 element"
  | _ => .error "expected items array"

/-- The required `overall` sub-object. -/
def decodeOverallField : Option Json → Except String Overall
  | some j => decodeOverall j
  | none => .error "missing overall"

/-- `IntentResponseSchema.parse` (validate.ts): the full Zod schema,
including `z.array(IntentItem).min(1)`. -/
def intentResponseSchemaParse : Json → Except String IntentResponse
  | .obj fields => do
    let email_meta ← decodeEmailMetaField (getField fields "email_meta")
    let items ← decodeItemsArray (getField fields "items")
    let overall ← decodeOverallField (getField fields "overall")
    pure { email_meta := email_meta, items := items, overall := overall }
  | _ => .error "expected response object"

/-- The set of distinct intents of the items
(`new Set(response.items.map(item => item.intent))` in validate.ts). -/
def distinctIntents (items : List IntentItem) : List IntentType :=
  items.foldl (fun acc it => if acc.contains it.intent then acc else acc ++ [it.intent]) []

/-- The advisory `console.warn` branches of `validatePlausibility`
(validate.ts): they never affect control flow, so they are modelled as a
separate warnings computation. -/
def plausibilityWarnings (r : IntentResponse) : List String :=
  let actualMaxConfidence := listMaxQ (r.items.map (·.confidence))
  let w1 : List String :=
    if |r.overall.max_confidence - actualMaxConfidence| > mkRat 1 100
    then ["Max confidence mismatch"] else []
  let actualMultiIntent := (distinctIntents r.items).length > 1
  let w2 : List String :=
    if r.overall.multi_intent != actualMultiIntent
    then ["Multi intent mismatch"] else []
  w1 ++ w2

/-- `validatePlausibility` (validate.ts) as control flow: only the
`top_intent`-absent-from-items check throws; the confidence and
multi-intent comparisons merely log (see `plausibilityWarnings`). -/
def validatePlausibility (r : IntentResponse) : Except String Unit :=
  if r.items.any (fun item => item.intent == r.overall.top_intent) then .ok ()
  else .error ("Top intent \"" ++ intentToString r.overall.top_intent ++
    "\" nicht in items gefunden")

/-- The code-fence stripping of `parseIntentJSON`:
`txt.replace(/^```[a-zA-Z]*\n?/, "").replace(/```$/, "")`, applied only
when the trimmed text starts with a fence. -/
def stripFences (t : String) : String :=
  if jsStartsWith t "```" then
    let rest := t.data.drop 3
    let rest := rest.dropWhile (fun c => ('a' ≤ c ∧ c ≤ 'z') ∨ ('A' ≤ c ∧ c ≤ 'Z'))
    let rest := match rest with
      | '\n' :: r => r
      | r => r
    let s1 : String := ⟨rest⟩
    if jsEndsWith s1 "```" then ⟨s1.data.take (s1.data.length - 3)⟩ else s1
  else t

/-- JS `s.substring(a, b)`: swaps its endpoints when `a > b` and clamps
to the string length. -/
def jsSubstring (s : String) (a b : Nat) : String :=
  let lo := min a b
  let hi := max a b
  ⟨(s.data.drop lo).take (hi - lo)⟩

/-- The prose-trimming step of `parseIntentJSON`: keep the window from
the first `{` to the last `}` when both exist. -/
def braceWindow (t : String) : String :=
  match t.data.findIdx? (· = '{'), (t.data.reverse.findIdx? (· = '}')) with
  | some jsonStart, some revEnd =>
    let jsonEnd := t.data.length - 1 - revEnd
    jsSubstring t jsonStart (jsonEnd + 1)
  | _, _ => t

/-- The body of the `try` block of `parseIntentJSON` (validate.ts).
`jsonrepair` and `JSON.parse` are external library calls, passed in as
total functions into `Except`; the inner `try`/`catch` around
`jsonrepair` falls back to the unrepaired text. -/
def parseIntentJSONCore (jsonParse : String → Except String Json)
    (repairFn : String → Except String String) (raw : String) :
    Except String IntentResponse := do
  let txt := jsTrim raw
  let txt := stripFences txt
  let txt := braceWindow txt
  let repaired := match repairFn txt with
    | .ok r => r
    | .error _ => txt
  let obj ← jsonParse repaired
  let validated ← intentResponseSchemaParse obj
  let _ ← validatePlausibility validated
  pure validated

/-- `parseIntentJSON` (validate.ts): the surrounding `catch` wraps any
failure into the classified German error message. -/
def parseIntentJSON (jsonParse : String → Except String Json)
    (repairFn : String → Except String String) (raw : String) :
    Except String IntentResponse :=
  match parseIntentJSONCore jsonParse repairFn raw with
  | .ok v => .ok v
  | .error e => .error ("Ungültiges Intent-JSON: " ++ e)

/-- `createEmptyResponse` (validate.ts). -/
def createEmptyResponse (reason : String) : IntentResponse where
  email_meta := { language := "de", received_at_iso := none, priority_indicator := none }
  items :=
    [{ intent := .allgemeine_info
       confidence := mkRat 1 10
       slots :=
         { datum := none, zeit := none, dringlichkeit := none, grund := none,
           person_name := none, geburtsdatum := none, versicherung := none,
           medikament := none, symptome := none, kontakt := none,
           freie_form := some reason }
       next_action := .eskalieren
       notes := "Fehlerhafte Klassifikation: " ++ reason }]
  overall :=
    { top_intent := .allgemeine_info, max_confidence := mkRat 1 10,
      multi_intent := false, sentiment := none, requires_human := true }

/-- The schema-validity facts guaranteed for every successfully parsed
response: non-empty items, confidences within `[0, 1]`, and a top intent
realised by some item. -/
def schemaValid (r : IntentResponse) : Prop :=
  r.items ≠ [] ∧
  (∀ it ∈ r.items, 0 ≤ it.confidence ∧ it.confidence ≤ 1) ∧
  ∃ it ∈ r.items, it.intent = r.overall.top_intent

/-- Classified-failure test on a parse outcome: an error whose message
carries the `Ungültiges Intent-JSON` classification. -/
def isClassifiedErr : Except String IntentResponse → Bool
  | .error e => jsStartsWith e "Ungültiges Intent-JSON"
  | .ok _ => false

/-! ## Orchestrator (`src/MFA/src/pipeline/classifyExtract.ts`)

The asynchronous LLM call (raced against its timeout) is modelled by a
single `Except String LLMResult` outcome: `.ok` for a settled response,
`.error m` for a rejection, a thrown error, or the `"LLM timeout"`
rejection of the race.  The per-item time normalization
(`normalizeDateTimeSlots`, an external module from the orchestrator's
point of view) is likewise an explicit total function into `Except`;
`Promise.allSettled` isolation of per-item failures becomes a fold that
records a warning and keeps the item unchanged on failure. -/

/-- The resolved value of `llmProvider.generateResponse`. -/
structure LLMResult where
  response : String
  model : String
  duration : ℚ
deriving DecidableEq, Repr

/-- The fields of a `normalizeDateTimeSlots` result consumed by
`classifyEmail` when rewriting an item's slots.  (The additional
`(item as any).meta` attachment is dynamically typed and invisible to
every consumer in the pipeline; it is not part of the typed model.) -/
structure NormDT where
  dateOnly : Option String
  timeOnly : Option String
  range : Option (String × String)
deriving DecidableEq, Repr

/-- `ClassificationOptions` with the defaults of `DEFAULT_OPTIONS`
already resolved (`{ ...DEFAULT_OPTIONS, ...options }`). -/
structure ClassificationOptions where
  slotDurationMinutes : ℚ
  normalizeSlots : Bool
  llmModel : String
  enableFallback : Bool
  timeout : ℚ
deriving DecidableEq, Repr

/-- `DEFAULT_OPTIONS` from classifyExtract.ts. -/
def DEFAULT_OPTIONS : ClassificationOptions where
  slotDurationMinutes := 15
  normalizeSlots := true
  llmModel := "claude-3.5-sonnet"
  enableFallback := true
  timeout := 30000

/-- `ClassificationResult` from classifyExtract.ts. -/
structure ClassificationResult where
  originalEmail : String
  timestamp : String
  llmResponse : String
  llmModel : Option String
  llmDuration : Option ℚ
  parsed : IntentResponse
  normalized : IntentResponse
  parsingError : Option String
  decision : GateDecision
  processingPlan : ProcessingPlan
  complexity : Complexity
  success : Bool
  error : Option String
  warnings : List String

/-- The slot rewriting applied to one item from a successful
normalization (classifyExtract.ts, the `forEach` over settled results). -/
def applyNormalization (nd : NormDT) (item : IntentItem) : IntentItem :=
  let item := match nd.dateOnly with
    | some d => { item with slots := { item.slots with datum := some d } }
    | none => item
  match nd.timeOnly with
  | some t =>
    match nd.range with
    | some (a, b) => { item with slots := { item.slots with zeit := some (a ++ "-" ++ b) } }
    | none => { item with slots := { item.slots with zeit := some t } }
  | none => item

/-- The per-item normalization pass: `Promise.allSettled` over the items
with failure isolation — a failed item keeps its parsed slots and adds a
warning mentioning its index. -/
def normalizeItems (normFn : Option String → Option String → ℚ → Except String NormDT)
    (slotDuration : ℚ) (items : List IntentItem) : List IntentItem × List String :=
  let step := fun (acc : List IntentItem × List String × Nat) (item : IntentItem) =>
    let (done, warns, idx) := acc
    match normFn item.slots.datum item.slots.zeit slotDuration with
    | .ok nd => (done ++ [applyNormalization nd item], warns, idx + 1)
    | .error e =>
      (done ++ [item],
       warns ++ ["Normalisierung für Item " ++ toString idx ++ " fehlgeschlagen: " ++ e],
       idx + 1)
  let res := items.foldl step ([], [], 0)
  (res.1, res.2.1)

/-- The fatal-failure result of the outer `catch` in `classifyEmail`. -/
def fatalResult (email timestamp errorMessage : String) (warnings : List String) :
    ClassificationResult where
  originalEmail := email
  timestamp := timestamp
  llmResponse := ""
  llmModel := none
  llmDuration := none
  parsed := createEmptyResponse "Kritischer Fehler"
  normalized := createEmptyResponse "Kritischer Fehler"
  decision := .ESCALATE [] "Kritischer Fehler bei der Klassifikation" 0
  processingPlan :=
    { buckets := [], totalItems := 0, multiIntent := false,
      processingOrder := [], estimatedDuration := 0 }
  complexity := { level := "critical", score := 1, factors := ["Klassifikationsfehler"] }
  parsingError := none
  success := false
  error := some errorMessage
  warnings := warnings

/-- The tail of the `try` block shared by the parsed and fallback paths:
normalization, gate decision, processing plan, complexity analysis. -/
def successResult (gateCfg : GateConfig)
    (normFn : Option String → Option String → ℚ → Except String NormDT)
    (llm : LLMResult) (email timestamp : String) (opts : ClassificationOptions)
    (parsed : IntentResponse) (parsingError : Option String)
    (warnings : List String) : ClassificationResult :=
  let (normItems, normWarnings) :=
    if opts.normalizeSlots then
      normalizeItems normFn opts.slotDurationMinutes parsed.items
    else (parsed.items, [])
  let normalized : IntentResponse := { parsed with items := normItems }
  let decision := gate gateCfg normalized (some email)
  let processingPlan := createProcessingPlan normalized.items
  let complexity := analyzeComplexity processingPlan
  { originalEmail := email
    timestamp := timestamp
    llmResponse := llm.response
    llmModel := some llm.model
    llmDuration := some llm.duration
    parsed := parsed
    normalized := normalized
    parsingError := parsingError
    decision := decision
    processingPlan := processingPlan
    complexity := complexity
    success := true
    error := none
    warnings := warnings ++ normWarnings }

/-- `classifyEmail` from classifyExtract.ts.  Every failure of the model
call, the parser (when the fallback is disabled), or any later stage is
absorbed by the outer `catch` and turned into `fatalResult` — the
function is total and always returns a `ClassificationResult`. -/
def classifyEmail (gateCfg : GateConfig)
    (jsonParse : String → Except String Json)
    (repairFn : String → Except String String)
    (normFn : Option String → Option String → ℚ → Except String NormDT)
    (providerOutcome : Except String LLMResult)
    (email timestamp : String) (opts : ClassificationOptions) :
    ClassificationResult :=
  match providerOutcome with
  | .error e => fatalResult email timestamp e []
  | .ok llm =>
    match parseIntentJSON jsonParse repairFn llm.response with
    | .ok parsed =>
      successResult gateCfg normFn llm email timestamp opts parsed none []
    | .error parsingError =>
      if opts.enableFallback then
        successResult gateCfg normFn llm email timestamp opts
          (createEmptyResponse ("Parsing-Fehler: " ++ parsingError))
          (some parsingError)
          ["JSON-Parsing fehlgeschlagen, verwende Fallback"]
      else
        -- the rethrown parse error reaches the outer catch with no
        -- warnings accumulated yet
        fatalResult email timestamp parsingError []

/-! ## Concrete example inputs (used to instantiate the theorems) -/

/-- An all-`null` slots record. -/
def emptySlots : IntentSlots where
  datum := none
  zeit := none
  dringlichkeit := none
  grund := none
  person_name := none
  geburtsdatum := none
  versicherung := none
  medikament := none
  symptome := none
  kontakt := none
  freie_form := none

/-- An item with empty slots. -/
def mkItem (i : IntentType) (c : ℚ) (na : NextAction) : IntentItem where
  intent := i
  confidence := c
  slots := emptySlots
  next_action := na
  notes := "n"

/-- A response around the given items. -/
def mkResp (items : List IntentItem) (top : IntentType) (maxc : ℚ)
    (requiresHuman : Bool) : IntentResponse where
  email_meta := { language := "de", received_at_iso := none, priority_indicator := none }
  items := items
  overall :=
    { top_intent := top, max_confidence := maxc, multi_intent := false,
      sentiment := none, requires_human := requiresHuman }

/-- The spec's gate-priority test input: one emergency item at confidence
0.1 alongside nine non-emergency items at confidence 0.99. -/
def respEmergencyLowConf : IntentResponse :=
  mkResp (mkItem .notfall (mkRat 1 10) .notfall_protokoll ::
      List.replicate 9 (mkItem .termin_anfragen (mkRat 99 100) .termin_vorschlagen))
    .notfall (mkRat 99 100) false

/-- A response with no emergency item at all. -/
def respNoEmergency : IntentResponse :=
  mkResp [mkItem .allgemeine_info (mkRat 99 100) .rueckfrage_senden] .allgemeine_info (mkRat 99 100) false

/-- The spec's missing-slot test input: one appointment request with
`datum = null`, `zeit = null` at confidence 0.9. -/
def respTerminIncomplete : IntentResponse :=
  mkResp [mkItem .termin_anfragen (mkRat 9 10) .slots_vervollstaendigen] .termin_anfragen (mkRat 9 10) false

/-- An all-null JSON slots object (schema-valid). -/
def slotsJson : Json :=
  .obj [("datum", .null), ("zeit", .null), ("dringlichkeit", .null),
        ("grund", .null), ("person_name", .null), ("geburtsdatum", .null),
        ("versicherung", .null), ("medikament", .null), ("symptome", .null),
        ("kontakt", .null), ("freie_form", .null)]

/-- A JSON intent item with the given intent string and confidence. -/
def itemJson (intent : String) (conf : ℚ) : Json :=
  .obj [("intent", .str intent), ("confidence", .num conf),
        ("slots", slotsJson), ("next_action", .str "rueckfrage_senden"),
        ("notes", .str "n")]

/-- A complete JSON response object for the given items, top intent and
declared max confidence. -/
def respJson (items : List Json) (top : String) (maxc : ℚ) : Json :=
  .obj [("email_meta",
          .obj [("language", .str "de"), ("received_at_iso", .null),
                ("priority_indicator", .null)]),
        ("items", .arr items),
        ("overall",
          .obj [("top_intent", .str top), ("max_confidence", .num maxc),
                ("multi_intent", .bool false), ("sentiment", .null),
                ("requires_human", .bool false)])]

/-- A fully schema-valid JSON response. -/
def jGood : Json := respJson [itemJson "termin_anfragen" 1] "termin_anfragen" 1

/-- A schema-valid JSON response whose `top_intent` occurs in no item —
the fatal plausibility violation. -/
def jBadTop : Json := respJson [itemJson "termin_anfragen" 1] "rezept_anfordern" 1

/-- A schema-valid JSON response whose declared `max_confidence` 0.3
disagrees with the items' actual maximum 0.9 (warn-only mismatch). -/
def jMismatch : Json := respJson [itemJson "termin_anfragen" 1] "termin_anfragen" 0

/-- The typed response `jMismatch` parses to (declared values kept). -/
def respMismatchParsed : IntentResponse :=
  { email_meta := { language := "de", received_at_iso := none, priority_indicator := none }
    items := [{ intent := .termin_anfragen, confidence := 1, slots := emptySlots,
                next_action := .rueckfrage_senden, notes := "n" }]
    overall := { top_intent := .termin_anfragen, max_confidence := 0,
                 multi_intent := false, sentiment := none, requires_human := false } }

/-- The typed response `jGood` parses to. -/
def respGoodParsed : IntentResponse :=
  { respMismatchParsed with
    overall := { respMismatchParsed.overall with max_confidence := 1 } }

/-- The typed response `jBadTop` parses to before the plausibility check
(its `top_intent` occurs in no item). -/
def respBadTopParsed : IntentResponse :=
  { respGoodParsed with
    overall := { respGoodParsed.overall with top_intent := .rezept_anfordern } }

/-- A JSON-parse stage that ignores its input and yields the given value
(stands in for `JSON.parse` when only the parsed object matters). -/
def constParse (j : Json) : String → Except String Json := fun _ => .ok j

/-- The identity repair stage (a `jsonrepair` that has nothing to fix). -/
def idRepair : String → Except String String := fun s => .ok s

/-- A JSON-parse stage that always fails (unparsable model output). -/
def failParse : String → Except String Json := fun _ => .error "Unexpected token"

/-- A normalizer stub that always fails (the orchestrator must isolate
such failures). -/
def failNorm : Option String → Option String → ℚ → Except String NormDT :=
  fun _ _ _ => .error "norm unavailable"

/-- A Tuesday 09:00 timestamp (2025-10-07 is a Tuesday and no configured
holiday). -/
def tueNineAM : LocalDateTime := ⟨"2025-10-07", 2, 9, 0⟩

/-- A Wednesday 14:00 timestamp (2025-10-08 is a Wednesday and no
configured holiday). -/
def wedTwoPM : LocalDateTime := ⟨"2025-10-08", 3, 14, 0⟩

/-- A single emergency item (used to evaluate the processing-duration
table slip). -/
def notfallItem : IntentItem := mkItem .notfall 1 .notfall_protokoll

/-! ## Helper lemmas -/

/-- Inversion of a successful `Except` bind. -/
theorem exceptBind_ok {α β : Type} {e : Except String α} {f : α → Except String β}
    {b : β} (h : (e >>= f) = .ok b) : ∃ a, e = .ok a ∧ f a = .ok b := by
  cases e with
  | ok a => exact ⟨a, rfl, h⟩
  | error msg => simp [Bind.bind, Except.bind] at h

/-- A character list starts with itself in front of anything. -/
theorem startsWithL_append (p rest : List Char) : startsWithL (p ++ rest) p = true := by
  induction p with
  | nil => simp [startsWithL]
  | cons c cs ih => simp [startsWithL, ih]

/-- `checkForEmergency` on a response with at least one emergency item:
the intent-based branch fires. -/
theorem checkForEmergency_intent (cfg : GateConfig) (resp : IntentResponse)
    (txt : Option String) (h : resp.items.filter isEmergencyItem ≠ []) :
    checkForEmergency cfg resp txt =
      some (.EMERGENCY (resp.items.filter isEmergencyItem) "Notfall-Intent erkannt"
        (if listMaxQ ((resp.items.filter isEmergencyItem).map (·.confidence)) > mkRat 8 10
          then .critical else .high)) := by
  unfold checkForEmergency
  rw [if_pos (List.length_pos.mpr h)]

/-- `checkForEmergency` with no emergency item but a keyword hit in the
raw text: the keyword branch fires. -/
theorem checkForEmergency_keyword (cfg : GateConfig) (resp : IntentResponse)
    (txt : String) (hNo : resp.items.filter isEmergencyItem = [])
    (hKw : keywordMatches cfg txt ≠ []) :
    checkForEmergency cfg resp (some txt) =
      some (.EMERGENCY [synthEmergencyItem txt (keywordMatches cfg txt)]
        ("Notfall-Keywords erkannt: " ++ String.intercalate ", " (keywordMatches cfg txt))
        (if (keywordMatches cfg txt).any (fun kw =>
            kw ∈ ["herzinfarkt", "schlaganfall", "bewusstlos", "atemnot"])
          then .critical else .high)) := by
  unfold checkForEmergency
  rw [hNo]
  simp only [List.length_nil, gt_iff_lt, lt_self_iff_false, if_false]
  rw [if_pos (List.length_pos.mpr hKw)]

/-- `checkForEmergency` with no emergency item and no keyword hit
returns `null`. -/
theorem checkForEmergency_none (cfg : GateConfig) (resp : IntentResponse)
    (txt : Option String) (hNo : resp.items.filter isEmergencyItem = [])
    (hKw : ∀ t, txt = some t → keywordMatches cfg t = []) :
    checkForEmergency cfg resp txt = none := by
  unfold checkForEmergency
  rw [hNo]
  simp only [List.length_nil, gt_iff_lt, lt_self_iff_false, if_false]
  cases txt with
  | none => rfl
  | some t =>
    have h := hKw t rfl
    simp [h]

/-- The inner missing-slot fold never loses recorded slot names. -/
theorem mem_foldl_addMissingSlot_of_mem (item : IntentItem) (reqs : List String)
    (acc : List String) (x : String) (hx : x ∈ acc) :
    x ∈ reqs.foldl (addMissingSlot item) acc := by
  induction reqs generalizing acc with
  | nil => exact hx
  | cons r rest ih =>
    apply ih
    unfold addMissingSlot
    split
    · exact List.mem_append_left _ hx
    · exact hx

/-- The inner missing-slot fold records every missing required slot. -/
theorem mem_foldl_addMissingSlot_self (item : IntentItem) (reqs : List String)
    (acc : List String) (s : String) (hs : s ∈ reqs)
    (hmiss : isMissingVal (slotLookup item.slots s) = true) :
    s ∈ reqs.foldl (addMissingSlot item) acc := by
  induction reqs generalizing acc with
  | nil => cases hs
  | cons r rest ih =>
    rcases List.mem_cons.mp hs with hEq | hMem
    · subst hEq
      rw [List.foldl_cons]
      apply mem_foldl_addMissingSlot_of_mem
      unfold addMissingSlot
      rw [hmiss]
      split
      · exact List.mem_append_right _ (List.mem_singleton.mpr rfl)
      · next h =>
        simp only [Bool.true_and, Bool.not_eq_true', Bool.not_eq_false] at h
        exact List.elem_iff.mp h
    · exact ih _ hMem

/-- The outer fold of `findMissingSlots` never loses recorded names. -/
theorem mem_foldl_addItemMissing_of_mem (cfg : GateConfig) (items : List IntentItem)
    (acc : List String) (x : String) (hx : x ∈ acc) :
    x ∈ items.foldl (addItemMissing cfg) acc := by
  induction items generalizing acc with
  | nil => exact hx
  | cons i rest ih =>
    exact ih _ (mem_foldl_addMissingSlot_of_mem i _ _ _ hx)

/-- Completeness of `findMissingSlots`: every required slot missing on
some item appears in the result. -/
theorem mem_findMissingSlots (cfg : GateConfig) (items : List IntentItem)
    (it : IntentItem) (s : String) (hit : it ∈ items)
    (hreq : s ∈ cfg.requiredSlots it.intent)
    (hmiss : isMissingVal (slotLookup it.slots s) = true) :
    s ∈ findMissingSlots cfg items := by
  unfold findMissingSlots
  suffices h : ∀ acc, s ∈ items.foldl (addItemMissing cfg) acc by exact h []
  intro acc
  induction items generalizing acc with
  | nil => cases hit
  | cons i rest ih =>
    rcases List.mem_cons.mp hit with hEq | hMem
    · subst hEq
      exact mem_foldl_addItemMissing_of_mem cfg rest _ s
        (mem_foldl_addMissingSlot_self it _ acc s hreq hmiss)
    · exact ih hMem _

/-! ## Claim theorems -/

/-- C1: for every validated `IntentResponse` with at least one item whose
intent is `notfall` or whose next action is `notfall_protokoll`, `gate`
returns an `EMERGENCY` decision — for every configuration, raw text, and
in particular regardless of the other items' confidences and of
`overall.requires_human` — and the urgency is `critical` exactly when the
maximum confidence among the emergency items exceeds 0.8. -/
theorem gate_emergency_intent_priority (cfg : GateConfig) (resp : IntentResponse)
    (txt : Option String) (hEm : resp.items.filter isEmergencyItem ≠ []) :
    ∃ urg, gate cfg resp txt =
        .EMERGENCY (resp.items.filter isEmergencyItem) "Notfall-Intent erkannt" urg ∧
      (urg = .critical ↔
        listMaxQ ((resp.items.filter isEmergencyItem).map (·.confidence)) > mkRat 8 10) := by
  refine ⟨if listMaxQ ((resp.items.filter isEmergencyItem).map (·.confidence)) > mkRat 8 10
    then .critical else .high, ?_, ?_⟩
  · unfold gate
    rw [checkForEmergency_intent cfg resp txt hEm]
  · by_cases h : listMaxQ ((resp.items.filter isEmergencyItem).map (·.confidence)) > mkRat 8 10
    · simp [h]
    · simp [h]

/-- Witness for C1 at the spec's gate-priority test input: one emergency
item at confidence 0.1 alongside nine non-emergency items at 0.99; the
urgency is `high` because the emergency item's confidence is below 0.8. -/
theorem gate_emergency_intent_priority_witness :
    respEmergencyLowConf.items.filter isEmergencyItem ≠ [] ∧
    ∃ urg, gate DEFAULT_CONFIG respEmergencyLowConf none =
        .EMERGENCY (respEmergencyLowConf.items.filter isEmergencyItem)
          "Notfall-Intent erkannt" urg ∧
      (urg = .critical ↔
        listMaxQ ((respEmergencyLowConf.items.filter isEmergencyItem).map
          (·.confidence)) > mkRat 8 10) :=
  ⟨by decide,
   gate_emergency_intent_priority DEFAULT_CONFIG respEmergencyLowConf none (by decide)⟩

/-- C2: with no emergency item in the response but a configured emergency
keyword occurring (case-insensitively) in the supplied raw text, `gate`
returns `EMERGENCY` whose item list is exactly one synthesized `notfall`
item with confidence 0.9 and next action `notfall_protokoll`. -/
theorem gate_emergency_keyword_safety_net (cfg : GateConfig) (resp : IntentResponse)
    (txt : String) (hNo : resp.items.filter isEmergencyItem = [])
    (hKw : ∃ kw ∈ cfg.emergencyKeywords, jsIncludes (jsToLower txt) (jsToLower kw) = true) :
    ∃ reason urg, gate cfg resp (some txt) =
        .EMERGENCY [synthEmergencyItem txt (keywordMatches cfg txt)] reason urg ∧
      (synthEmergencyItem txt (keywordMatches cfg txt)).intent = .notfall ∧
      (synthEmergencyItem txt (keywordMatches cfg txt)).confidence = mkRat 9 10 ∧
      (synthEmergencyItem txt (keywordMatches cfg txt)).next_action = .notfall_protokoll := by
  have hFound : keywordMatches cfg txt ≠ [] := by
    obtain ⟨kw, hmem, hinc⟩ := hKw
    intro hnil
    have : kw ∈ keywordMatches cfg txt := List.mem_filter.mpr ⟨hmem, hinc⟩
    rw [hnil] at this
    cases this
  refine ⟨"Notfall-Keywords erkannt: " ++ String.intercalate ", " (keywordMatches cfg txt),
    if (keywordMatches cfg txt).any (fun kw =>
        kw ∈ ["herzinfarkt", "schlaganfall", "bewusstlos", "atemnot"])
      then .critical else .high, ?_, rfl, rfl, rfl⟩
  unfold gate
  rw [checkForEmergency_keyword cfg resp txt hNo hFound]

/-- Witness for C2: the spec's keyword-safety-net test — raw text
containing "bewusstlos" and a model response with zero emergency items. -/
theorem gate_emergency_keyword_safety_net_witness :
    respNoEmergency.items.filter isEmergencyItem = [] ∧
    ∃ reason urg, gate DEFAULT_CONFIG respNoEmergency
        (some "Der Patient ist bewusstlos") =
        .EMERGENCY [synthEmergencyItem "Der Patient ist bewusstlos"
          (keywordMatches DEFAULT_CONFIG "Der Patient ist bewusstlos")] reason urg ∧
      (synthEmergencyItem "Der Patient ist bewusstlos"
        (keywordMatches DEFAULT_CONFIG "Der Patient ist bewusstlos")).intent = .notfall ∧
      (synthEmergencyItem "Der Patient ist bewusstlos"
        (keywordMatches DEFAULT_CONFIG "Der Patient ist bewusstlos")).confidence = mkRat 9 10 ∧
      (synthEmergencyItem "Der Patient ist bewusstlos"
        (keywordMatches DEFAULT_CONFIG "Der Patient ist bewusstlos")).next_action =
        .notfall_protokoll :=
  ⟨by decide,
   gate_emergency_keyword_safety_net DEFAULT_CONFIG respNoEmergency
     "Der Patient ist bewusstlos" (by decide)
     ⟨"bewusstlos", by decide, by decide⟩⟩

/-- C10: the default emergency-keyword list contains the generic urgency
words "dringend", "sofort", "akut" and the generic symptom word
"schmerzen"; consequently, with no emergency item in the response, any
raw text containing the case-insensitive substring "dringend" makes
`gate` under the default configuration return `EMERGENCY`, medical
emergency or not. -/
theorem emergency_keywords_generic_trigger :
    ("dringend" ∈ EMERGENCY_KEYWORDS ∧ "sofort" ∈ EMERGENCY_KEYWORDS ∧
      "akut" ∈ EMERGENCY_KEYWORDS ∧ "schmerzen" ∈ EMERGENCY_KEYWORDS) ∧
    ∀ (resp : IntentResponse) (txt : String),
      resp.items.filter isEmergencyItem = [] →
      jsIncludes (jsToLower txt) "dringend" = true →
      ∃ items reason urg,
        gate DEFAULT_CONFIG resp (some txt) = .EMERGENCY items reason urg := by
  refine ⟨by decide, ?_⟩
  intro resp txt hNo hInc
  have hFound : keywordMatches DEFAULT_CONFIG txt ≠ [] := by
    intro hnil
    have hlow : jsIncludes (jsToLower txt) (jsToLower "dringend") = true := by
      have : jsToLower "dringend" = "dringend" := by decide
      rw [this]
      exact hInc
    have hmem : "dringend" ∈ keywordMatches DEFAULT_CONFIG txt :=
      List.mem_filter.mpr ⟨by decide, hlow⟩
    rw [hnil] at hmem
    cases hmem
  refine ⟨[synthEmergencyItem txt (keywordMatches DEFAULT_CONFIG txt)],
    "Notfall-Keywords erkannt: " ++
      String.intercalate ", " (keywordMatches DEFAULT_CONFIG txt),
    if (keywordMatches DEFAULT_CONFIG txt).any (fun kw =>
        kw ∈ ["herzinfarkt", "schlaganfall", "bewusstlos", "atemnot"])
      then .critical else .high, ?_⟩
  unfold gate
  rw [checkForEmergency_keyword DEFAULT_CONFIG resp txt hNo hFound]

/-- Witness for C10: a routine appointment message containing "DRINGEND"
(case-insensitive hit, no medical-emergency term) is gated `EMERGENCY`. -/
theorem emergency_keywords_generic_trigger_witness :
    respTerminIncomplete.items.filter isEmergencyItem = [] ∧
    jsIncludes (jsToLower "Bitte DRINGEND melden") "dringend" = true ∧
    ∃ items reason urg,
      gate DEFAULT_CONFIG respTerminIncomplete (some "Bitte DRINGEND melden") =
        .EMERGENCY items reason urg :=
  ⟨by decide, by decide,
   emergency_keywords_generic_trigger.2 respTerminIncomplete "Bitte DRINGEND melden"
     (by decide) (by decide)⟩

/-- The threshold cascade `gate` reduces to once no emergency fires and
the model did not request a human. -/
theorem gate_threshold_eq (cfg : GateConfig) (resp : IntentResponse)
    (txt : Option String) (hNo : resp.items.filter isEmergencyItem = [])
    (hKw : ∀ t, txt = some t → keywordMatches cfg t = [])
    (hHuman : resp.overall.requires_human = false) :
    gate cfg resp txt =
      (if resp.overall.max_confidence ≥ cfg.autoProcessThreshold then
        (if (findMissingSlots cfg resp.items).length = 0 then
          .AUTO_PROCESS resp.items resp.overall.max_confidence
            "Hohe Konfidenz und alle Slots verfügbar"
        else
          .ASK_CONFIRM resp.items "Hohe Konfidenz, aber fehlende Informationen"
            resp.overall.max_confidence (some (findMissingSlots cfg resp.items)))
      else if resp.overall.max_confidence ≥ cfg.confirmThreshold then
        .ASK_CONFIRM resp.items "Mittlere Sicherheit bei der Erkennung"
          resp.overall.max_confidence
          (if (findMissingSlots cfg resp.items).length > 0
            then some (findMissingSlots cfg resp.items) else none)
      else
        .ESCALATE resp.items "Niedrige Sicherheit bei der Erkennung"
          resp.overall.max_confidence) := by
  unfold gate
  rw [checkForEmergency_none cfg resp txt hNo hKw, hHuman]
  rfl

/-- C3: under the default configuration, with no emergency item, no
emergency keyword in the raw text and `requires_human = false`, `gate`
follows the documented threshold cascade — `AUTO_PROCESS` at
`max_confidence ≥ 0.85` (boundary included) with no missing required
slot, `ASK_CONFIRM` carrying every missing required slot name at
`max_confidence ≥ 0.85` with missing slots, `ASK_CONFIRM` for
`0.5 ≤ max_confidence < 0.85`, and `ESCALATE` below 0.5. -/
theorem gate_default_threshold_behaviour (resp : IntentResponse) (txt : Option String)
    (hNo : resp.items.filter isEmergencyItem = [])
    (hKw : ∀ t, txt = some t → keywordMatches DEFAULT_CONFIG t = [])
    (hHuman : resp.overall.requires_human = false) :
    (resp.overall.max_confidence ≥ mkRat 85 100 →
      findMissingSlots DEFAULT_CONFIG resp.items = [] →
      gate DEFAULT_CONFIG resp txt =
        .AUTO_PROCESS resp.items resp.overall.max_confidence
          "Hohe Konfidenz und alle Slots verfügbar") ∧
    (resp.overall.max_confidence ≥ mkRat 85 100 →
      findMissingSlots DEFAULT_CONFIG resp.items ≠ [] →
      gate DEFAULT_CONFIG resp txt =
        .ASK_CONFIRM resp.items "Hohe Konfidenz, aber fehlende Informationen"
          resp.overall.max_confidence
          (some (findMissingSlots DEFAULT_CONFIG resp.items)) ∧
      ∀ s it, it ∈ resp.items → s ∈ DEFAULT_CONFIG.requiredSlots it.intent →
        isMissingVal (slotLookup it.slots s) = true →
        s ∈ findMissingSlots DEFAULT_CONFIG resp.items) ∧
    (mkRat 1 2 ≤ resp.overall.max_confidence → resp.overall.max_confidence < mkRat 85 100 →
      gate DEFAULT_CONFIG resp txt =
        .ASK_CONFIRM resp.items "Mittlere Sicherheit bei der Erkennung"
          resp.overall.max_confidence
          (if (findMissingSlots DEFAULT_CONFIG resp.items).length > 0
            then some (findMissingSlots DEFAULT_CONFIG resp.items) else none)) ∧
    (resp.overall.max_confidence < mkRat 1 2 →
      gate DEFAULT_CONFIG resp txt =
        .ESCALATE resp.items "Niedrige Sicherheit bei der Erkennung"
          resp.overall.max_confidence) := by
  have hG := gate_threshold_eq DEFAULT_CONFIG resp txt hNo hKw hHuman
  have hA : DEFAULT_CONFIG.autoProcessThreshold = mkRat 85 100 := rfl
  have hC : DEFAULT_CONFIG.confirmThreshold = mkRat 1 2 := rfl
  rw [hA, hC] at hG
  refine ⟨?_, ?_, ?_, ?_⟩
  · intro h1 h2
    rw [hG, if_pos h1, if_pos (by rw [h2]; rfl)]
  · intro h1 h2
    constructor
    · rw [hG, if_pos h1,
        if_neg (fun hc => h2 (List.length_eq_zero.mp hc))]
    · intro s it hit hreq hmiss
      exact mem_findMissingSlots DEFAULT_CONFIG resp.items it s hit hreq hmiss
  · intro h1 h2
    rw [hG, if_neg (not_le.mpr h2), if_pos h1]
  · intro h1
    rw [hG, if_neg (not_le.mpr (lt_of_lt_of_le h1 (by norm_num))),
      if_neg (not_le.mpr h1)]

/-- Witness for C3 at the spec's missing-slot test input: a single
appointment request at confidence 0.9 with `datum` and `zeit` null is
answered `ASK_CONFIRM`, and both slot names are reported missing. -/
theorem gate_default_threshold_behaviour_witness :
    gate DEFAULT_CONFIG respTerminIncomplete none =
      .ASK_CONFIRM respTerminIncomplete.items
        "Hohe Konfidenz, aber fehlende Informationen"
        respTerminIncomplete.overall.max_confidence
        (some (findMissingSlots DEFAULT_CONFIG respTerminIncomplete.items)) ∧
    "datum" ∈ findMissingSlots DEFAULT_CONFIG respTerminIncomplete.items ∧
    "zeit" ∈ findMissingSlots DEFAULT_CONFIG respTerminIncomplete.items := by
  have h := (gate_default_threshold_behaviour respTerminIncomplete none (by decide)
    (fun t ht => nomatch ht) (by decide)).2.1 (by decide) (by decide)
  exact ⟨h.1,
    h.2 "datum" (mkItem .termin_anfragen (mkRat 9 10) .slots_vervollstaendigen)
      (by decide) (by decide) (by decide),
    h.2 "zeit" (mkItem .termin_anfragen (mkRat 9 10) .slots_vervollstaendigen)
      (by decide) (by decide) (by decide)⟩

/-- The per-interval test of `isWithinBusinessHours`, characterised. -/
theorem slotCheck_iff (slot : String × String) (t : ℚ) :
    ((match slotMinutes slot.1, slotMinutes slot.2 with
      | some s, some e => decide (s ≤ t ∧ t ≤ e)
      | _, _ => false) = true) ↔
    ∃ s e, slotMinutes slot.1 = some s ∧ slotMinutes slot.2 = some e ∧
      s ≤ t ∧ t ≤ e := by
  cases h1 : slotMinutes slot.1 <;> cases h2 : slotMinutes slot.2 <;> simp [h1, h2]

/-- The characterisation of `isWithinBusinessHours` as the claim's
open-predicate. -/
theorem isWithinBusinessHours_iff_open (st : BHState) (dt : LocalDateTime) :
    isWithinBusinessHours st dt = true ↔ openPerClaim st dt := by
  unfold isWithinBusinessHours openPerClaim slotsForWeekday
  cases hHol : isHolidayB st dt.dateStr
  · simp only [Bool.false_eq_true, if_false, eq_self_iff_true, true_and]
    cases hLook : st.hours.lookup (getDayKey dt.weekday)
    · simp [hLook]
    · next slots =>
      dsimp only
      by_cases hLen : slots.length = 0
      · rw [List.length_eq_zero] at hLen
        subst hLen
        simp [hLook]
      · rw [if_neg hLen]
        simp only [Option.getD_some, List.any_eq_true, slotCheck_iff]
  · simp [hHol]

/-- Evaluation scheme for `slotMinutes` on a two-component clock string. -/
theorem slotMinutes_eval (s hs ms : String) (hq mq : ℚ)
    (hsplit : jsSplitColon s = [hs, ms]) (hh : jsNumber hs = some hq)
    (hm : jsNumber ms = some mq) : slotMinutes s = some (hq * 60 + mq) := by
  simp [slotMinutes, hsplit, hh, hm]

/-- C7: `isWithinBusinessHours` answers `true` exactly when the calendar
date is not a configured holiday and the local clock time lies inside at
least one configured (parsable) interval for the weekday; and under the
default configuration every non-holiday Wednesday 14:00 is closed while
every non-holiday Tuesday 09:00 is open. -/
theorem isWithinBusinessHours_spec :
    (∀ (st : BHState) (dt : LocalDateTime),
      isWithinBusinessHours st dt = true ↔ openPerClaim st dt) ∧
    (∀ dt : LocalDateTime, isHolidayB defaultBHState dt.dateStr = false →
      dt.weekday = 3 → dt.hour = 14 → dt.minute = 0 →
      isWithinBusinessHours defaultBHState dt = false) ∧
    (∀ dt : LocalDateTime, isHolidayB defaultBHState dt.dateStr = false →
      dt.weekday = 2 → dt.hour = 9 → dt.minute = 0 →
      isWithinBusinessHours defaultBHState dt = true) := by
  have h0800 : slotMinutes "08:00" = some ((8 : ℚ) * 60 + 0) :=
    slotMinutes_eval _ "08" "00" _ _ (by decide) (by decide) (by decide)
  have h1200 : slotMinutes "12:00" = some ((12 : ℚ) * 60 + 0) :=
    slotMinutes_eval _ "12" "00" _ _ (by decide) (by decide) (by decide)
  refine ⟨isWithinBusinessHours_iff_open, ?_, ?_⟩
  · intro dt hHol hW hH hM
    cases h : isWithinBusinessHours defaultBHState dt
    · rfl
    · exfalso
      obtain ⟨-, slot, hmem, s, e, hs, he, h1, h2⟩ :=
        (isWithinBusinessHours_iff_open _ _).mp h
      rw [hW] at hmem
      have hday : slotsForWeekday defaultBHState 3 = [("08:00", "12:00")] := by decide
      rw [hday] at hmem
      rw [List.mem_singleton.mp hmem] at hs he
      rw [h0800] at hs
      rw [h1200] at he
      have hev := Option.some.inj he
      rw [hH, hM] at h2
      rw [← hev] at h2
      norm_num at h2
  · intro dt hHol hW hH hM
    refine (isWithinBusinessHours_iff_open _ _).mpr
      ⟨hHol, ("08:00", "12:00"), ?_, (8 : ℚ) * 60 + 0, (12 : ℚ) * 60 + 0,
        h0800, h1200, ?_, ?_⟩
    · rw [hW]
      decide
    · rw [hH, hM]
      norm_num
    · rw [hH, hM]
      norm_num

/-- Witness for C7: 2025-10-08 (a Wednesday, no configured holiday) at
14:00 is closed; 2025-10-07 (a Tuesday, no configured holiday) at 09:00
is open. -/
theorem isWithinBusinessHours_spec_witness :
    isWithinBusinessHours defaultBHState wedTwoPM = false ∧
    isWithinBusinessHours defaultBHState tueNineAM = true :=
  ⟨isWithinBusinessHours_spec.2.1 wedTwoPM (by decide) rfl rfl rfl,
   isWithinBusinessHours_spec.2.2 tueNineAM (by decide) rfl rfl rfl⟩

/-- Counterexample to C8 as stated: the claim says every mixture of two
or more distinct intents outside the emergency and appointment cases is
flagged incompatible, but `areIntentsCompatible` answers `true` ("other
combinations are normally ok") for the mixture
`{rezept_anfordern, laborbefund}`, which contains no appointment-family
intent and no `notfall`. -/
theorem areIntentsCompatible_other_mixture_compatible :
    areIntentsCompatible [.rezept_anfordern, .laborbefund] = true := by decide

/-- C8 (amended): `areIntentsCompatible` flags `notfall` together with
any other intent incompatible; a set containing an appointment-family
intent is compatible exactly when every member is drawn from the
appointment family plus `rezept_anfordern` and `allgemeine_info`; and a
set with neither a `notfall`-plus-others combination nor any
appointment-family intent is compatible. -/
theorem areIntentsCompatible_amended :
    (∀ l : List IntentType, l.contains .notfall = true → l.length > 1 →
      areIntentsCompatible l = false) ∧
    (∀ l : List IntentType, l.any (fun i => terminIntents.contains i) = true →
      (∀ i ∈ l, i ∈ compatibleWithTermin) → areIntentsCompatible l = true) ∧
    (∀ l : List IntentType, l.any (fun i => terminIntents.contains i) = true →
      (∃ i ∈ l, i ∉ compatibleWithTermin) → areIntentsCompatible l = false) ∧
    (∀ l : List IntentType, l.contains .notfall = false →
      l.any (fun i => terminIntents.contains i) = false →
      areIntentsCompatible l = true) := by
  refine ⟨?_, ?_, ?_, ?_⟩
  · intro l h1 h2
    unfold areIntentsCompatible
    rw [if_pos (by rw [h1]; exact (decide_eq_true h2))]
  · intro l hTermin hAll
    have hNot : l.contains .notfall = false := by
      rw [List.contains_eq_any_beq]
      rw [List.any_eq_false]
      intro i hi
      have hmem := hAll i hi
      have hne : i ≠ IntentType.notfall := by
        intro hEq
        subst hEq
        simp [compatibleWithTermin, terminIntents] at hmem
      intro hbe
      exact hne (eq_of_beq hbe).symm
    unfold areIntentsCompatible
    rw [if_neg (by rw [hNot]; simp)]
    dsimp only
    rw [hTermin]
    simp only [if_true]
    rw [List.all_eq_true]
    intro i hi
    exact List.elem_iff.mpr (hAll i hi)
  · intro l hTermin hBad
    obtain ⟨i, hi, hiNot⟩ := hBad
    unfold areIntentsCompatible
    by_cases hNotf : l.contains .notfall = true ∧ l.length > 1
    · rw [if_pos (by rw [hNotf.1]; exact decide_eq_true hNotf.2)]
    · have hc : ¬(l.contains IntentType.notfall && decide (l.length > 1)) = true := by
        intro hcon
        rcases Bool.and_eq_true_iff.mp hcon with ⟨ha, hb⟩
        exact hNotf ⟨ha, of_decide_eq_true hb⟩
      rw [if_neg hc]
      simp only [hTermin, if_true]
      rw [List.all_eq_false]
      exact ⟨i, hi, by simpa using hiNot⟩
  · intro l hNot hTermin
    unfold areIntentsCompatible
    rw [if_neg (by rw [hNot]; simp)]
    dsimp only
    rw [hTermin]
    rfl

/-- Witness for C8 (amended) at the spec's bucket-compatibility tests:
`{notfall, termin_anfragen}` is incompatible; `{termin_anfragen,
rezept_anfordern}` is compatible. -/
theorem areIntentsCompatible_amended_witness :
    areIntentsCompatible [.notfall, .termin_anfragen] = false ∧
    areIntentsCompatible [.termin_anfragen, .rezept_anfordern] = true :=
  ⟨areIntentsCompatible_amended.1 [.notfall, .termin_anfragen] (by decide) (by decide),
   areIntentsCompatible_amended.2.1 [.termin_anfragen, .rezept_anfordern]
     (by decide) (by decide)⟩

/-- C9 (code slip): the processing-duration table assigns `notfall` the
value 0 ("immediate hand-off"), but `createProcessingPlan` reads it
through the JS expression `PROCESSING_DURATION[intent] || 1`, whose `||`
treats the 0 as falsy and substitutes 1 — so a single emergency item is
estimated at 1 minute instead of the table's 0. -/
theorem createProcessingPlan_notfall_duration_bug :
    PROCESSING_DURATION .notfall = 0 ∧
    (createProcessingPlan [notfallItem]).estimatedDuration = 1 := by
  refine ⟨rfl, ?_⟩
  simp [createProcessingPlan, prioritizeIntents, splitByIntent, addToBuckets,
    List.insertionSort, List.orderedInsert, processingDurationOr1,
    PROCESSING_DURATION, notfallItem, mkItem, bucketMean, INTENT_PRIORITIES]

deriving instance DecidableEq for Except

/-- A decoded confidence lies within the Zod bounds `[0, 1]`. -/
theorem decodeConfidence_range {o : Option Json} {q : ℚ}
    (h : decodeConfidence o = .ok q) : 0 ≤ q ∧ q ≤ 1 := by
  unfold decodeConfidence at h
  split at h
  · next q' =>
    split at h
    · split at h
      · next h1 h2 =>
        cases h
        exact ⟨h1, h2⟩
      · cases h
    · cases h
  · cases h

/-- A decoded item carries a confidence within `[0, 1]`. -/
theorem decodeItem_conf {j : Json} {it : IntentItem}
    (h : decodeItem j = .ok it) : 0 ≤ it.confidence ∧ it.confidence ≤ 1 := by
  cases j with
  | obj fields =>
    simp only [decodeItem] at h
    obtain ⟨intentv, h1, h⟩ := exceptBind_ok h
    obtain ⟨conf, h2, h⟩ := exceptBind_ok h
    obtain ⟨slots, h3, h⟩ := exceptBind_ok h
    obtain ⟨na, h4, h⟩ := exceptBind_ok h
    obtain ⟨notes, h5, h⟩ := exceptBind_ok h
    simp only [pure, Except.pure, Except.ok.injEq] at h
    subst h
    exact decodeConfidence_range h2
  | null => simp [decodeItem] at h
  | bool b => simp [decodeItem] at h
  | num q => simp [decodeItem] at h
  | str s => simp [decodeItem] at h
  | arr elems => simp [decodeItem] at h

/-- Every item of a decoded item list satisfies the confidence bounds. -/
theorem decodeItemList_conf {l : List Json} {its : List IntentItem}
    (h : decodeItemList l = .ok its) :
    ∀ it ∈ its, 0 ≤ it.confidence ∧ it.confidence ≤ 1 := by
  induction l generalizing its with
  | nil =>
    simp only [decodeItemList, Except.ok.injEq] at h
    subst h
    intro it hit
    cases hit
  | cons j rest ih =>
    simp only [decodeItemList] at h
    obtain ⟨it0, h1, h⟩ := exceptBind_ok h
    obtain ⟨rest0, h2, h⟩ := exceptBind_ok h
    simp only [pure, Except.pure, Except.ok.injEq] at h
    subst h
    intro it hit
    rcases List.mem_cons.mp hit with hEq | hMem
    · subst hEq
      exact decodeItem_conf h1
    · exact ih h2 it hMem

/-- The decoded `items` field is non-empty and within bounds. -/
theorem decodeItemsField_ok {o : Option Json} {items : List IntentItem}
    (h : decodeItemsArray o = .ok items) :
    items ≠ [] ∧ ∀ it ∈ items, 0 ≤ it.confidence ∧ it.confidence ≤ 1 := by
  unfold decodeItemsArray at h
  split at h
  · next elems =>
    obtain ⟨its, h1, h⟩ := exceptBind_ok h
    split at h
    · next hlen =>
      cases h
      refine ⟨?_, decodeItemList_conf h1⟩
      intro hnil
      rw [hnil] at hlen
      simp at hlen
    · cases h
  · cases h

/-- Schema parsing yields non-empty items with bounded confidences. -/
theorem intentResponseSchemaParse_ok {j : Json} {r : IntentResponse}
    (h : intentResponseSchemaParse j = .ok r) :
    r.items ≠ [] ∧ ∀ it ∈ r.items, 0 ≤ it.confidence ∧ it.confidence ≤ 1 := by
  cases j with
  | obj fields =>
    simp only [intentResponseSchemaParse] at h
    obtain ⟨meta, h1, h⟩ := exceptBind_ok h
    obtain ⟨items, h2, h⟩ := exceptBind_ok h
    obtain ⟨overall, h3, h⟩ := exceptBind_ok h
    simp only [pure, Except.pure, Except.ok.injEq] at h
    subst h
    exact decodeItemsField_ok h2
  | null => simp [intentResponseSchemaParse] at h
  | bool b => simp [intentResponseSchemaParse] at h
  | num q => simp [intentResponseSchemaParse] at h
  | str s => simp [intentResponseSchemaParse] at h
  | arr elems => simp [intentResponseSchemaParse] at h

/-- A response passing `validatePlausibility` realises its top intent. -/
theorem validatePlausibility_ok {r : IntentResponse}
    (h : validatePlausibility r = .ok ()) :
    ∃ it ∈ r.items, it.intent = r.overall.top_intent := by
  unfold validatePlausibility at h
  split at h
  · next hany =>
    obtain ⟨it, hmem, hbeq⟩ := List.any_eq_true.mp hany
    exact ⟨it, hmem, eq_of_beq hbeq⟩
  · cases h

/-- A successful run of the `try` body of `parseIntentJSON` yields a
schema-valid response. -/
theorem parseIntentJSONCore_ok {jp : String → Except String Json}
    {rf : String → Except String String} {raw : String} {r : IntentResponse}
    (h : parseIntentJSONCore jp rf raw = .ok r) : schemaValid r := by
  unfold parseIntentJSONCore at h
  obtain ⟨obj, h1, h⟩ := exceptBind_ok h
  obtain ⟨validated, h2, h⟩ := exceptBind_ok h
  obtain ⟨u, h3, h⟩ := exceptBind_ok h
  simp only [pure, Except.pure, Except.ok.injEq] at h
  subst h
  obtain ⟨hne, hbounds⟩ := intentResponseSchemaParse_ok h2
  cases u
  exact ⟨hne, hbounds, validatePlausibility_ok h3⟩

/-- A successful `parseIntentJSON` yields a schema-valid response. -/
theorem parseIntentJSON_ok {jp : String → Except String Json}
    {rf : String → Except String String} {raw : String} {r : IntentResponse}
    (h : parseIntentJSON jp rf raw = .ok r) : schemaValid r := by
  unfold parseIntentJSON at h
  split at h
  · next v hv =>
    cases h
    exact parseIntentJSONCore_ok hv
  · cases h

/-- A string starts with its first summand. -/
theorem jsStartsWith_append (p rest : String) :
    jsStartsWith (p ++ rest) p = true := by
  unfold jsStartsWith
  rw [String.data_append]
  exact startsWithL_append p.data rest.data

/-- C6: for every input string (and every total behaviour of the
external `jsonrepair` and `JSON.parse` stages), `parseIntentJSON`
terminates — it is a total function by construction — and either
returns a schema-valid `IntentResponse` or fails with exactly one
classified error whose message begins `Ungültiges Intent-JSON`. -/
theorem parseIntentJSON_total_classified (jp : String → Except String Json)
    (rf : String → Except String String) (raw : String) :
    (∃ r, parseIntentJSON jp rf raw = .ok r ∧ schemaValid r) ∨
    (∃ e, parseIntentJSON jp rf raw = .error e ∧
      jsStartsWith e "Ungültiges Intent-JSON" = true) := by
  cases h : parseIntentJSONCore jp rf raw with
  | ok v =>
    left
    have hp : parseIntentJSON jp rf raw = .ok v := by
      unfold parseIntentJSON
      rw [h]
    exact ⟨v, hp, parseIntentJSON_ok hp⟩
  | error e =>
    right
    refine ⟨"Ungültiges Intent-JSON: " ++ e, ?_, ?_⟩
    · unfold parseIntentJSON
      rw [h]
    · have hsplit : ("Ungültiges Intent-JSON: " : String) ++ e =
          "Ungültiges Intent-JSON" ++ (": " ++ e) := by
        rw [← String.append_assoc]
        rfl
      rw [hsplit]
      exact jsStartsWith_append "Ungültiges Intent-JSON" (": " ++ e)

/-- A failing `try` body always surfaces as the classified error. -/
theorem isClassifiedErr_of_core_error {jp : String → Except String Json}
    {rf : String → Except String String} {raw e : String}
    (h : parseIntentJSONCore jp rf raw = .error e) :
    isClassifiedErr (parseIntentJSON jp rf raw) = true := by
  unfold parseIntentJSON
  rw [h]
  simp only [isClassifiedErr]
  have hsplit : ("Ungültiges Intent-JSON: " : String) ++ e =
      "Ungültiges Intent-JSON" ++ (": " ++ e) := by
    rw [← String.append_assoc]
    rfl
  rw [hsplit]
  exact jsStartsWith_append "Ungültiges Intent-JSON" (": " ++ e)

/-- A schema-valid object whose `top_intent` occurs in no item is
rejected: `validatePlausibility` raises, and the surrounding catch
classifies the failure. -/
theorem parseIntentJSON_rejects_bad_top {rf : String → Except String String}
    {raw : String} {obj : Json} {r : IntentResponse}
    (hschema : intentResponseSchemaParse obj = .ok r)
    (htop : ∀ it ∈ r.items, it.intent ≠ r.overall.top_intent) :
    isClassifiedErr (parseIntentJSON (constParse obj) rf raw) = true := by
  have hval : validatePlausibility r = .error ("Top intent \"" ++
      intentToString r.overall.top_intent ++ "\" nicht in items gefunden") := by
    unfold validatePlausibility
    rw [if_neg]
    intro hany
    obtain ⟨it, hmem, hbeq⟩ := List.any_eq_true.mp hany
    exact htop it hmem (eq_of_beq hbeq)
  have hcore : parseIntentJSONCore (constParse obj) rf raw = .error ("Top intent \"" ++
      intentToString r.overall.top_intent ++ "\" nicht in items gefunden") := by
    unfold parseIntentJSONCore constParse
    simp only [bind, Except.bind, hschema, hval]
  exact isClassifiedErr_of_core_error hcore

/-- If the intent field decodes but the confidence decoder fails, the
whole item decoder fails with that error. -/
theorem decodeItem_err_bad_conf {fields : List (String × Json)} {q : ℚ} {m : String}
    (hint : ∃ i, decodeIntentField (getField fields "intent") = .ok i)
    (hconf : getField fields "confidence" = some (.num q))
    (herr : decodeConfidence (some (.num q)) = .error m) :
    decodeItem (.obj fields) = .error m := by
  obtain ⟨i, hint⟩ := hint
  simp only [decodeItem, bind, Except.bind, hint, hconf, herr]

/-- If `email_meta` decodes but the `items` field decoder fails, schema
parsing fails with that error. -/
theorem schemaParse_err_items {fields : List (String × Json)} {m : String}
    (hmeta : ∃ em, decodeEmailMetaField (getField fields "email_meta") = .ok em)
    (hitems : decodeItemsArray (getField fields "items") = .error m) :
    intentResponseSchemaParse (.obj fields) = .error m := by
  obtain ⟨em, hmeta⟩ := hmeta
  simp only [intentResponseSchemaParse, bind, Except.bind, hmeta, hitems]

/-- An out-of-range confidence fails schema validation: the single-item
response object whose item confidence is the given value is rejected
with the classified error. -/
theorem parseIntentJSON_rejects_bad_confidence
    {rf : String → Except String String} {raw : String} {q : ℚ}
    (hq : ¬(0 ≤ q ∧ q ≤ 1)) :
    isClassifiedErr (parseIntentJSON
      (constParse (respJson [itemJson "termin_anfragen" q] "termin_anfragen" 1))
      rf raw) = true := by
  have h1 : ∃ m, decodeConfidence (some (.num q)) = .error m := by
    show ∃ m, (if 0 ≤ q then
        if q ≤ 1 then Except.ok q else Except.error "confidence above 1"
      else Except.error "confidence below 0") = Except.error m
    by_cases h0 : 0 ≤ q
    · rw [if_pos h0]
      by_cases h2 : q ≤ 1
      · exact absurd ⟨h0, h2⟩ hq
      · rw [if_neg h2]
        exact ⟨_, rfl⟩
    · rw [if_neg h0]
      exact ⟨_, rfl⟩
  obtain ⟨m, h1⟩ := h1
  have h2 : decodeItem (itemJson "termin_anfragen" q) = .error m :=
    decodeItem_err_bad_conf ⟨.termin_anfragen, rfl⟩ rfl h1
  have h3 : decodeItemList [itemJson "termin_anfragen" q] = .error m := by
    simp only [decodeItemList, bind, Except.bind, h2]
  have h4 : decodeItemsArray (some (.arr [itemJson "termin_anfragen" q])) =
      .error m := by
    simp only [decodeItemsArray, bind, Except.bind, h3]
  have h5 : intentResponseSchemaParse
      (respJson [itemJson "termin_anfragen" q] "termin_anfragen" 1) = .error m :=
    schemaParse_err_items ⟨⟨"de", none, none⟩, rfl⟩ h4
  have hcore : parseIntentJSONCore
      (constParse (respJson [itemJson "termin_anfragen" q] "termin_anfragen" 1))
      rf raw = .error m := by
    unfold parseIntentJSONCore constParse
    simp only [bind, Except.bind, h5]
  exact isClassifiedErr_of_core_error hcore

/-- C4: every response returned by `parseIntentJSON` is schema-valid
(non-empty items, confidences in `[0, 1]`, top intent realised by some
item); a schema-valid object whose `top_intent` occurs in no item is
rejected with the classified error, as is any confidence outside
`[0, 1]`; whereas a declared `max_confidence` disagreeing with the
items' actual maximum only produces an advisory warning and the response
is returned unchanged. -/
theorem parseIntentJSON_validation_behaviour :
    (∀ (jp : String → Except String Json) (rf : String → Except String String)
      (raw : String) (r : IntentResponse),
      parseIntentJSON jp rf raw = .ok r → schemaValid r) ∧
    (∀ (rf : String → Except String String) (raw : String) (obj : Json)
      (r : IntentResponse), intentResponseSchemaParse obj = .ok r →
      (∀ it ∈ r.items, it.intent ≠ r.overall.top_intent) →
      isClassifiedErr (parseIntentJSON (constParse obj) rf raw) = true) ∧
    (∀ (rf : String → Except String String) (raw : String) (q : ℚ),
      ¬(0 ≤ q ∧ q ≤ 1) →
      isClassifiedErr (parseIntentJSON
        (constParse (respJson [itemJson "termin_anfragen" q] "termin_anfragen" 1))
        rf raw) = true) ∧
    (parseIntentJSON (constParse jMismatch) idRepair "{}" = .ok respMismatchParsed ∧
      respMismatchParsed.overall.max_confidence = 0 ∧
      listMaxQ (respMismatchParsed.items.map (·.confidence)) = 1 ∧
      plausibilityWarnings respMismatchParsed ≠ []) := by
  refine ⟨fun jp rf raw r h => parseIntentJSON_ok h,
    fun rf raw obj r hs ht => parseIntentJSON_rejects_bad_top hs ht,
    fun rf raw q hq => parseIntentJSON_rejects_bad_confidence hq,
    by decide, rfl, rfl, ?_⟩
  have h100 : mkRat 1 100 = 1/100 := by
    norm_num [mkRat, Rat.normalize]
  simp only [plausibilityWarnings, respMismatchParsed, listMaxQ, List.map,
    List.foldl, h100]
  norm_num
  exact List.cons_ne_nil _ _

/-- Witness for C4: a fully valid concrete model output parses
successfully to a schema-valid response, and the concrete bad-top-intent
and confidence-1.5 objects are rejected with the classified error. -/
theorem parseIntentJSON_validation_behaviour_witness :
    (parseIntentJSON (constParse jGood) idRepair "{}" = .ok respGoodParsed ∧
      schemaValid respGoodParsed) ∧
    isClassifiedErr (parseIntentJSON (constParse jBadTop) idRepair "{}") = true ∧
    isClassifiedErr (parseIntentJSON
      (constParse (respJson [itemJson "termin_anfragen" (mkRat 3 2)]
        "termin_anfragen" 1)) idRepair "{}") = true :=
  ⟨⟨by decide,
    parseIntentJSON_validation_behaviour.1 (constParse jGood) idRepair "{}"
      respGoodParsed (by decide)⟩,
   parseIntentJSON_validation_behaviour.2.1 idRepair "{}" jBadTop respBadTopParsed
     (by decide) (by decide),
   parseIntentJSON_validation_behaviour.2.2.1 idRepair "{}" (mkRat 3 2)
     (by decide)⟩

/-- Counterexample to C5 as stated: the claim promises a *non-empty*
error message in the fatal-failure branch, but a provider that rejects
with an empty-message error yields `error = some ""` — the orchestrator
copies the caught message verbatim and nothing enforces non-emptiness. -/
theorem classifyEmail_empty_error_message :
    (classifyEmail DEFAULT_CONFIG failParse idRepair failNorm (.error "")
      "mail" "ts" DEFAULT_OPTIONS).success = false ∧
    (classifyEmail DEFAULT_CONFIG failParse idRepair failNorm (.error "")
      "mail" "ts" DEFAULT_OPTIONS).error = some "" :=
  ⟨rfl, rfl⟩

/-- C5 (amended): `classifyEmail` is total — it returns a
`ClassificationResult` for every provider outcome, never propagating a
failure — and whenever `success = false` the result carries the
`ESCALATE` decision with confidence 0, complexity `critical` with score
1, and an error message equal to the caught failure's message (present,
though empty when the provider's own message is empty); every provider
failure lands in that branch with its message preserved. -/
theorem classifyEmail_total_fatal_branch (gateCfg : GateConfig)
    (jp : String → Except String Json) (rf : String → Except String String)
    (nf : Option String → Option String → ℚ → Except String NormDT)
    (po : Except String LLMResult) (email ts : String)
    (opts : ClassificationOptions) :
    ((classifyEmail gateCfg jp rf nf po email ts opts).success = false →
      (classifyEmail gateCfg jp rf nf po email ts opts).decision =
        .ESCALATE [] "Kritischer Fehler bei der Klassifikation" 0 ∧
      (classifyEmail gateCfg jp rf nf po email ts opts).complexity =
        ⟨"critical", 1, ["Klassifikationsfehler"]⟩ ∧
      ((classifyEmail gateCfg jp rf nf po email ts opts).error).isSome = true) ∧
    (∀ e, po = .error e →
      (classifyEmail gateCfg jp rf nf po email ts opts).success = false ∧
      (classifyEmail gateCfg jp rf nf po email ts opts).error = some e) := by
  cases po with
  | error e =>
    refine ⟨fun _ => ⟨rfl, rfl, rfl⟩, ?_⟩
    intro e' he'
    cases he'
    exact ⟨rfl, rfl⟩
  | ok llm =>
    have hNoErr : ∀ e, (Except.ok llm : Except String LLMResult) = .error e →
        (classifyEmail gateCfg jp rf nf (.ok llm) email ts opts).success = false ∧
        (classifyEmail gateCfg jp rf nf (.ok llm) email ts opts).error = some e :=
      fun e he => Except.noConfusion he
    cases hp : parseIntentJSON jp rf llm.response with
    | ok parsed =>
      refine ⟨?_, hNoErr⟩
      intro hfalse
      simp [classifyEmail, hp, successResult] at hfalse
    | error pe =>
      cases hf : opts.enableFallback with
      | true =>
        refine ⟨?_, hNoErr⟩
        intro hfalse
        simp [classifyEmail, hp, hf, successResult] at hfalse
      | false =>
        refine ⟨?_, hNoErr⟩
        intro hfalse
        have hr : classifyEmail gateCfg jp rf nf (.ok llm) email ts opts =
            fatalResult email ts pe [] := by
          simp [classifyEmail, hp, hf]
        rw [hr]
        exact ⟨rfl, rfl, rfl⟩

/-- Witness for C5 at a concrete timed-out provider: the result reports
the failure with its message. -/
theorem classifyEmail_total_fatal_branch_witness :
    (classifyEmail DEFAULT_CONFIG failParse idRepair failNorm
      (.error "LLM timeout") "mail" "ts" DEFAULT_OPTIONS).success = false ∧
    (classifyEmail DEFAULT_CONFIG failParse idRepair failNorm
      (.error "LLM timeout") "mail" "ts" DEFAULT_OPTIONS).error =
      some "LLM timeout" :=
  (classifyEmail_total_fatal_branch DEFAULT_CONFIG failParse idRepair failNorm
    (.error "LLM timeout") "mail" "ts" DEFAULT_OPTIONS).2 "LLM timeout" rfl

end MFA
